import Mathlib

/-
  Verification development for the sciencehabits-content-api content
  validation pipeline.

  The main subject is the `ContentValidator` class of the content validation
  script (`scripts/validate-content.js`, provided as src/unnamed/part_000):
  a Node.js program that loads JSON content files for each
  (content type, language) pair, validates them against fixed ajv schemas,
  applies business rules, cross-reference checks, translation-completeness
  checks and quality checks, and finally produces a report plus an exit code.

  The embedding models:
    * JSON values (`Json`) and the state of each content file (`FileState`);
    * the issue accumulator (`VState`, `addError`, `addWarning`);
    * each validation stage as a pure state-transforming function, with
      JavaScript exceptions modelled as an `Option String` component
      (`some msg` = an exception carrying message `msg` is propagating);
    * the overall run (`runCore` / `runValidator`), where an uncaught
      exception aborts the run (`RunResult.crashed`) exactly as the
      try/catch in `validateAll` does (console.error + process.exit(1));
    * the duplicate-id check of `tests/content-validation.test.js`
      (`checkDuplicateIds`).

  JavaScript semantics are modelled explicitly where the code depends on
  them: truthiness, string coercion in template literals and `+`,
  `Array.prototype.join` rendering, `String.prototype.split(/\s+/)`,
  `Math.round`, and the fact that calling a non-function property
  (e.g. `this.compiledSchemas['habits']`, which is `undefined` because the
  schema was registered under the key `'habit'`) raises a `TypeError` that
  is caught by the nearest enclosing try/catch.
-/

/-- JSON values as parsed by `JSON.parse`. Numbers are modelled as integers;
the schemas in the source only use integer constraints. -/
inductive Json where
  | null
  | bool (b : Bool)
  | num (n : Int)
  | str (s : String)
  | arr (xs : List Json)
  | obj (fields : List (String × Json))
deriving Repr

mutual

def Json.beq : Json → Json → Bool
  | .null, .null => true
  | .bool a, .bool b => a == b
  | .num a, .num b => a == b
  | .str a, .str b => a == b
  | .arr xs, .arr ys => Json.beqList xs ys
  | .obj xs, .obj ys => Json.beqObj xs ys
  | _, _ => false

def Json.beqList : List Json → List Json → Bool
  | [], [] => true
  | x :: xs, y :: ys => Json.beq x y && Json.beqList xs ys
  | _, _ => false

def Json.beqObj : List (String × Json) → List (String × Json) → Bool
  | [], [] => true
  | (k1, v1) :: xs, (k2, v2) :: ys => k1 == k2 && Json.beq v1 v2 && Json.beqObj xs ys
  | _, _ => false

end

instance : BEq Json := ⟨Json.beq⟩

mutual

theorem Json.beq_refl : (a : Json) → Json.beq a a = true
  | .null => rfl
  | .bool b => by simp [Json.beq]
  | .num n => by simp [Json.beq]
  | .str s => by simp [Json.beq]
  | .arr xs => by simp [Json.beq, Json.beqList_refl xs]
  | .obj xs => by simp [Json.beq, Json.beqObj_refl xs]

theorem Json.beqList_refl : (xs : List Json) → Json.beqList xs xs = true
  | [] => rfl
  | x :: xs => by simp [Json.beqList, Json.beq_refl x, Json.beqList_refl xs]

theorem Json.beqObj_refl : (xs : List (String × Json)) → Json.beqObj xs xs = true
  | [] => rfl
  | (k, v) :: xs => by simp [Json.beqObj, Json.beq_refl v, Json.beqObj_refl xs]

end

mutual

theorem Json.eq_of_beq : {a b : Json} → Json.beq a b = true → a = b
  | .null, .null, _ => rfl
  | .bool a, .bool b, h => by
      have : a = b := by simpa [Json.beq] using h
      rw [this]
  | .num a, .num b, h => by
      have : a = b := by simpa [Json.beq] using h
      rw [this]
  | .str a, .str b, h => by
      have : a = b := by simpa [Json.beq] using h
      rw [this]
  | .arr xs, .arr ys, h => by
      have : xs = ys := Json.eqList_of_beq (by simpa [Json.beq] using h)
      rw [this]
  | .obj xs, .obj ys, h => by
      have : xs = ys := Json.eqObj_of_beq (by simpa [Json.beq] using h)
      rw [this]

theorem Json.eqList_of_beq : {xs ys : List Json} → Json.beqList xs ys = true → xs = ys
  | [], [], _ => rfl
  | x :: xs, y :: ys, h => by
      have hh := h
      simp [Json.beqList] at hh
      rw [Json.eq_of_beq hh.1, Json.eqList_of_beq hh.2]

theorem Json.eqObj_of_beq : {xs ys : List (String × Json)} → Json.beqObj xs ys = true → xs = ys
  | [], [], _ => rfl
  | (k1, v1) :: xs, (k2, v2) :: ys, h => by
      have hh := h
      simp [Json.beqObj] at hh
      rw [hh.1.1, Json.eq_of_beq hh.1.2, Json.eqObj_of_beq hh.2]

end

instance : LawfulBEq Json where
  eq_of_beq := Json.eq_of_beq
  rfl := Json.beq_refl _

instance : DecidableEq Json := fun a b =>
  match h : Json.beq a b with
  | true => isTrue (Json.eq_of_beq h)
  | false => isFalse (fun he => by subst he; rw [Json.beq_refl a] at h; cases h)

/-- JavaScript truthiness of a JSON value (`undefined` is handled separately
via `Option`): `null`, `false`, `0` and `""` are falsy, arrays and objects
are always truthy. -/
def Json.truthy : Json → Bool
  | .null => false
  | .bool b => b
  | .num n => n != 0
  | .str s => s != ""
  | .arr _ => true
  | .obj _ => true

/-- First binding of a key in an object literal (keys are unique in the
content files). -/
def lookupField : List (String × Json) → String → Option Json
  | [], _ => none
  | (k, v) :: rest, key => if k == key then some v else lookupField rest key

/-- JavaScript property access `value.key`: `none` models `undefined`
(missing property, or property access on a non-object value). -/
def Json.getField : Json → String → Option Json
  | .obj fields, key => lookupField fields key
  | _, _ => none

mutual

/-- JavaScript string coercion of a value (template literals, `+`):
arrays render as their comma-joined elements, objects as
`[object Object]`. -/
def jsStringOf : Json → String
  | .null => "null"
  | .bool true => "true"
  | .bool false => "false"
  | .num n => toString n
  | .str s => s
  | .arr xs => jsArrJoin xs
  | .obj _ => "[object Object]"

/-- `Array.prototype.join(",")`: `null` elements render as the empty
string. -/
def jsArrJoin : List Json → String
  | [] => ""
  | [Json.null] => ""
  | [x] => jsStringOf x
  | Json.null :: xs => "," ++ jsArrJoin xs
  | x :: xs => jsStringOf x ++ "," ++ jsArrJoin xs

end

/-- Coercion of a possibly-`undefined` value, as in `'' + v`. -/
def jsCoerceStr : Option Json → String
  | none => "undefined"
  | some j => jsStringOf j

/-- One element of an `Array.prototype.join(sep)` result: `undefined` and
`null` elements render as the empty string (unlike template literals). -/
def jsJoinElem : Option Json → String
  | none => ""
  | some Json.null => ""
  | some j => jsStringOf j

/-- `list.join(sep)` over already-rendered elements. -/
def joinSep (sep : String) : List String → String
  | [] => ""
  | x :: xs => xs.foldl (fun a b => a ++ sep ++ b) x

def startsWithChars : List Char → List Char → Bool
  | _, [] => true
  | [], _ :: _ => false
  | c :: cs, p :: ps => c == p && startsWithChars cs ps

def containsChars (hay pat : List Char) : Bool :=
  match hay with
  | [] => pat.isEmpty
  | _ :: tl => startsWithChars hay pat || containsChars tl pat

/-- `String.prototype.includes`. -/
def strContains (s pat : String) : Bool := containsChars s.toList pat.toList

/-- Whitespace characters matched by the regex `\s` (the content strings
only contain ASCII whitespace). -/
def isWsChar (c : Char) : Bool :=
  c == ' ' || c == '\t' || c == '\n' || c == '\r' || c.toNat == 11 || c.toNat == 12

def splitWsAux : List Char → List Char → Bool → List String
  | [], cur, _ => [String.mk cur.reverse]
  | c :: rest, cur, inWs =>
    if isWsChar c then
      if inWs then splitWsAux rest cur true
      else String.mk cur.reverse :: splitWsAux rest [] true
    else splitWsAux rest (c :: cur) false

/-- `s.split(/\s+/)`: split on maximal whitespace runs; a leading run
produces a leading empty piece, a trailing run a trailing empty piece,
and `"".split` yields one empty piece, exactly as in JavaScript. -/
def jsSplitWs (s : String) : List String := splitWsAux s.toList [] false

/-- `Math.round(a / b)` for natural inputs with `b > 0` (round half up). -/
def jsRound (a b : Nat) : Nat := (2 * a + b) / (2 * b)

/-- Insertion-order deduplication, as `new Set(...)` iterated with `[...]`. -/
def dedupStr (l : List String) : List String :=
  l.foldl (fun acc x => if acc.contains x then acc else acc ++ [x]) []

/-- Insertion-order deduplication of possibly-`undefined` JSON values. -/
def dedupOJ (l : List (Option Json)) : List (Option Json) :=
  l.foldl (fun acc x => if acc.contains x then acc else acc ++ [x]) []

/-- State of one content file on disk, from the validator's point of view:
missing, present but not valid JSON (`JSON.parse` throws with the given
message), or present with parsed content. -/
inductive FileState where
  | absent
  | malformed (msg : String)
  | ok (j : Json)
deriving Repr

/-- The input file set: content keyed by content type and language, as read
from `src/content/(type)/(lang).json`. -/
def FS : Type := String → String → FileState

/-- part_000 line 20: `this.supportedLanguages = ['en', 'de', 'fr', 'es']`. -/
def supportedLanguages : List String := ["en", "de", "fr", "es"]

/-- part_000 line 21: `this.contentTypes = ['habits', 'research', 'locales']`. -/
def contentTypes : List String := ["habits", "research", "locales"]

/-- The path template used throughout part_000:
`src/content/(contentType)/(language).json`. -/
def contentPath (ct lang : String) : String :=
  "src/content/" ++ ct ++ "/" ++ lang ++ ".json"

/-- `fs.existsSync` on a content file. -/
def fileExists (fs : FS) (ct lang : String) : Bool :=
  match fs ct lang with
  | .absent => false
  | _ => true

/-- The mutable state of a `ContentValidator` instance: `this.errors`,
`this.warnings` and `this.stats` (part_000 lines 23-30). `validationTime`
is wall-clock time, supplied separately to the report. -/
structure VState where
  errors : List String
  warnings : List String
  filesValidated : Nat
  totalErrors : Nat
  totalWarnings : Nat
deriving Repr, DecidableEq

/-- The state right after the constructor ran. -/
def initState : VState :=
  { errors := [], warnings := [], filesValidated := 0, totalErrors := 0, totalWarnings := 0 }

/-- part_000 lines 437-440: push the message and bump the counter. -/
def addError (st : VState) (msg : String) : VState :=
  { st with errors := st.errors ++ [msg], totalErrors := st.totalErrors + 1 }

/-- part_000 lines 442-445. -/
def addWarning (st : VState) (msg : String) : VState :=
  { st with warnings := st.warnings ++ [msg], totalWarnings := st.totalWarnings + 1 }

/-- Fold a list of warnings into the state via `addWarning`. -/
def appendWarnings (st : VState) (msgs : List String) : VState :=
  msgs.foldl addWarning st

/-- A fold that models a `forEach` / `for..of` loop whose body may throw:
the first thrown exception aborts the remaining iterations, keeping the
state mutations made so far. -/
def foldE {σ α : Type} (f : σ → α → σ × Option String) : σ → List α → σ × Option String
  | s, [] => (s, none)
  | s, x :: xs =>
    match f s x with
    | (s1, some m) => (s1, some m)
    | (s1, none) => foldE f s1 xs

/-- Characters matched by the schema pattern `^[a-z0-9-]+$`. -/
def isIdChar (c : Char) : Bool :=
  (97 ≤ c.toNat && c.toNat ≤ 122) || (48 ≤ c.toNat && c.toNat ≤ 57) || c == '-'

def idPatternOk (s : String) : Bool := 0 < s.length && s.toList.all isIdChar

def isDigitChar (c : Char) : Bool := 48 ≤ c.toNat && c.toNat ≤ 57

def isAsciiLetter (c : Char) : Bool :=
  (65 ≤ c.toNat && c.toNat ≤ 90) || (97 ≤ c.toNat && c.toNat ≤ 122)

/-- Characters matched by the locale-key pattern `^[a-zA-Z0-9._-]+$`. -/
def isLocaleKeyChar (c : Char) : Bool :=
  isAsciiLetter c || isDigitChar c || c == '.' || c == '_' || c == '-'

def localeKeyOk (s : String) : Bool := 0 < s.length && s.toList.all isLocaleKeyChar

/-- The tail character class of the strict DOI regex
`^10\.\d{4,}\/[-._;()\/:a-zA-Z0-9]+$` (part_000 line 269). -/
def doiTailChar (c : Char) : Bool :=
  c == '-' || c == '.' || c == '_' || c == ';' || c == '(' || c == ')' ||
  c == '/' || c == ':' || isAsciiLetter c || isDigitChar c

/-- Matching against the strict DOI regex of `validateResearchSpecific`. -/
def doiStrictOk (s : String) : Bool :=
  match s.toList with
  | '1' :: '0' :: '.' :: rest =>
    let ds := rest.takeWhile isDigitChar
    let tl := rest.dropWhile isDigitChar
    decide (4 ≤ ds.length) &&
      (match tl with
       | '/' :: t => !t.isEmpty && t.all doiTailChar
       | _ => false)
  | _ => false

/-- Matching against the loose schema DOI pattern `^10\.` (unanchored at
the end: the string only has to start with `10.`). -/
def doiLoosePatternOk (s : String) : Bool :=
  match s.toList with
  | '1' :: '0' :: '.' :: _ => true
  | _ => false

/- Schema registry (part_000 lines 35-105). Each compiled ajv validator is
modelled as a function from a JSON value to the list of
(instancePath, message) pairs of its schema violations; an empty list means
the value conforms. The message texts follow ajv's defaults (modulo the
quote marks around property names). -/

def habitRequired : List String :=
  ["id", "title", "description", "category", "difficulty", "timeMinutes", "language"]

def habitPropNames : List String :=
  ["id", "title", "description", "category", "difficulty", "timeMinutes", "language",
   "researchBacked", "sources"]

def categoryEnum : List String :=
  ["sleep", "productivity", "health", "mindfulness", "nutrition", "exercise"]

def difficultyEnum : List String := ["beginner", "intermediate", "advanced"]

def evidenceLevelEnum : List String :=
  ["systematic_review", "rct", "observational", "case_study"]

def researchRequired : List String :=
  ["id", "title", "summary", "authors", "year", "journal", "category",
   "evidenceLevel", "qualityScore", "language"]

def researchPropNames : List String :=
  ["id", "title", "summary", "authors", "year", "journal", "doi", "category",
   "evidenceLevel", "qualityScore", "language"]

/-- Violations of `{ type: string, minLength, maxLength }` for one field. -/
def strLenErrors (field : String) (minL maxL : Nat) : Json → List (String × String)
  | .str s =>
    (if s.length < minL then
       [("/" ++ field, "must NOT have fewer than " ++ toString minL ++ " characters")] else [])
    ++ (if maxL < s.length then
       [("/" ++ field, "must NOT have more than " ++ toString maxL ++ " characters")] else [])
  | _ => [("/" ++ field, "must be string")]

/-- Violations of `{ type: string, enum: [...] }` for one field. -/
def strEnumErrors (field : String) (allowed : List String) : Json → List (String × String)
  | .str s =>
    if allowed.contains s then []
    else [("/" ++ field, "must be equal to one of the allowed values")]
  | _ =>
    [("/" ++ field, "must be string"),
     ("/" ++ field, "must be equal to one of the allowed values")]

/-- Violations of `{ type: integer, minimum, maximum }` for one field. -/
def intRangeErrors (field : String) (lo hi : Int) : Json → List (String × String)
  | .num n =>
    (if n < lo then [("/" ++ field, "must be >= " ++ toString lo)] else [])
    ++ (if hi < n then [("/" ++ field, "must be <= " ++ toString hi)] else [])
  | _ => [("/" ++ field, "must be integer")]

/-- Violations of `{ type: string, pattern }` for one field. -/
def strPatternErrors (field pat : String) (check : String → Bool) : Json → List (String × String)
  | .str s => if check s then [] else [("/" ++ field, "must match pattern " ++ pat)]
  | _ => [("/" ++ field, "must be string")]

/-- Per-property constraints of the habit schema (part_000 lines 42-66). -/
def habitPropErrors (field : String) (v : Json) : List (String × String) :=
  if field == "id" then strPatternErrors "id" "^[a-z0-9-]+$" idPatternOk v
  else if field == "title" then strLenErrors "title" 5 100 v
  else if field == "description" then strLenErrors "description" 20 500 v
  else if field == "category" then strEnumErrors "category" categoryEnum v
  else if field == "difficulty" then strEnumErrors "difficulty" difficultyEnum v
  else if field == "timeMinutes" then intRangeErrors "timeMinutes" 1 180 v
  else if field == "language" then strEnumErrors "language" supportedLanguages v
  else if field == "researchBacked" then
    (match v with
     | .bool _ => []
     | _ => [("/researchBacked", "must be boolean")])
  else if field == "sources" then
    (match v with
     | .arr xs =>
       (if 10 < xs.length then [("/sources", "must NOT have more than 10 items")] else [])
       ++ xs.enum.filterMap (fun p =>
            match p.2 with
            | .str _ => none
            | _ => some ("/sources/" ++ toString p.1, "must be string"))
     | _ => [("/sources", "must be array")])
  else []

/-- The compiled habit schema (`this.compiledSchemas['habit']`): required
fields, `additionalProperties: false`, and per-property constraints. -/
def habitSchemaErrors (j : Json) : List (String × String) :=
  match j with
  | .obj fields =>
    let keys := fields.map (fun kv => kv.1)
    (habitRequired.filterMap (fun f =>
       if keys.contains f then none
       else some ("", "must have required property " ++ f)))
    ++ (keys.filterMap (fun k =>
       if habitPropNames.contains k then none
       else some ("", "must NOT have additional properties")))
    ++ (habitPropNames.flatMap (fun f =>
       match lookupField fields f with
       | some v => habitPropErrors f v
       | none => []))
  | _ => [("", "must be object")]

/-- A habit record conforms to the habit schema exactly when the compiled
validator reports no violations. -/
def conformsToHabitSchema (j : Json) : Bool := (habitSchemaErrors j).isEmpty

/-- Per-property constraints of the research schema (part_000 lines 73-93).
`year` is bounded by `new Date().getFullYear() + 1`, so the current year is
a parameter. -/
def researchPropErrors (year : Int) (field : String) (v : Json) : List (String × String) :=
  if field == "id" then strPatternErrors "id" "^[a-z0-9-]+$" idPatternOk v
  else if field == "title" then strLenErrors "title" 10 200 v
  else if field == "summary" then strLenErrors "summary" 50 1000 v
  else if field == "authors" then strLenErrors "authors" 5 200 v
  else if field == "year" then intRangeErrors "year" 1990 (year + 1) v
  else if field == "journal" then strLenErrors "journal" 5 100 v
  else if field == "doi" then strPatternErrors "doi" "^10\\." doiLoosePatternOk v
  else if field == "category" then strEnumErrors "category" categoryEnum v
  else if field == "evidenceLevel" then strEnumErrors "evidenceLevel" evidenceLevelEnum v
  else if field == "qualityScore" then intRangeErrors "qualityScore" 0 100 v
  else if field == "language" then strEnumErrors "language" supportedLanguages v
  else []

/-- The compiled research schema (`this.compiledSchemas['research']`). -/
def researchSchemaErrors (year : Int) (j : Json) : List (String × String) :=
  match j with
  | .obj fields =>
    let keys := fields.map (fun kv => kv.1)
    (researchRequired.filterMap (fun f =>
       if keys.contains f then none
       else some ("", "must have required property " ++ f)))
    ++ (keys.filterMap (fun k =>
       if researchPropNames.contains k then none
       else some ("", "must NOT have additional properties")))
    ++ (researchPropNames.flatMap (fun f =>
       match lookupField fields f with
       | some v => researchPropErrors year f v
       | none => []))
  | _ => [("", "must be object")]

/-- The compiled locales schema (part_000 lines 98-104): every key matching
`^[a-zA-Z0-9._-]+$` must map to a string of length 1..200; keys not matching
the pattern are rejected by `additionalProperties: false`. -/
def localesSchemaErrors (j : Json) : List (String × String) :=
  match j with
  | .obj fields =>
    fields.flatMap (fun kv =>
      if localeKeyOk kv.1 then
        match kv.2 with
        | .str s =>
          (if s.length < 1 then
             [("/" ++ kv.1, "must NOT have fewer than 1 characters")] else [])
          ++ (if 200 < s.length then
             [("/" ++ kv.1, "must NOT have more than 200 characters")] else [])
        | _ => [("/" ++ kv.1, "must be string")]
      else [("", "must NOT have additional properties")])
  | _ => [("", "must be object")]

/-- part_000 lines 250-265, `validateHabitSpecific`: habit business rules.
NOTE: this function is unreachable in the pipeline, because
`validateContentItem` dispatches on `contentType === 'habit'` while the
content type iterated by `validateAll` is `'habits'` (see
`validateContentItem` below); it is embedded here as written. -/
def validateHabitSpecific (st : VState) (habit : Json) (path : String) (index : Nat) :
    VState × Option String :=
  let noSources : Bool :=
    match habit.getField "sources" with
    | none => true
    | some v =>
      if v.truthy then
        (match v with
         | .arr xs => xs.isEmpty
         | _ => false)
      else true
  let st :=
    if (match habit.getField "researchBacked" with
        | some rb => rb.truthy
        | none => false) && noSources then
      addWarning st (path ++ "[" ++ toString index ++ "]: Habit marked as research-backed but has no sources")
    else st
  let st :=
    match habit.getField "timeMinutes", habit.getField "difficulty" with
    | some (.num t), some (.str d) =>
      if 60 < t && d == "beginner" then
        addWarning st (path ++ "[" ++ toString index ++ "]: Long duration (" ++ toString t ++ "min) for beginner habit")
      else st
    | _, _ => st
  match habit.getField "title" with
  | none => (st, some "Cannot read properties of undefined (reading length)")
  | some (.str s) =>
    (if s.length < 10 then
       addWarning st (path ++ "[" ++ toString index ++ "]: Title may be too short: \"" ++ s ++ "\"")
     else st, none)
  | some (.arr xs) =>
    (if xs.length < 10 then
       addWarning st (path ++ "[" ++ toString index ++ "]: Title may be too short: \"" ++ jsArrJoin xs ++ "\"")
     else st, none)
  | some _ => (st, none)

/-- The `evidenceQualityMap` object literal of part_000 lines 274-279. -/
def evidenceQualityMap : String → Option Int
  | "systematic_review" => some 80
  | "rct" => some 70
  | "observational" => some 60
  | "case_study" => some 40
  | _ => none

/-- The DOI format check of `validateResearchSpecific` (part_000
lines 268-271): `research.doi && !research.doi.match(...)`. A truthy
non-string `doi` makes `research.doi.match` throw. -/
def doiCheck (st : VState) (research : Json) (path : String) (index : Nat) :
    VState × Option String :=
  match research.getField "doi" with
  | some (.str s) =>
    (if s != "" && !doiStrictOk s then
       addWarning st (path ++ "[" ++ toString index ++ "]: DOI format may be invalid: " ++ s)
     else st, none)
  | some v => if v.truthy then (st, some "research.doi.match is not a function") else (st, none)
  | none => (st, none)

/-- The quality-score-vs-evidence-level check of `validateResearchSpecific`
(part_000 lines 273-284). Comparisons against `undefined` are false in
JavaScript, which the `match` guards reproduce. -/
def qualityEvidenceCheck (st : VState) (research : Json) (path : String) (index : Nat) : VState :=
  match research.getField "evidenceLevel", research.getField "qualityScore" with
  | some (.str lvl), some (.num q) =>
    (match evidenceQualityMap lvl with
     | some minQ =>
       if q < minQ then
         addWarning st (path ++ "[" ++ toString index ++ "]: Quality score (" ++ toString q ++ ") seems low for " ++ lvl)
       else st
     | none => st)
  | _, _ => st

/-- The recency check of `validateResearchSpecific` (part_000
lines 286-290). -/
def recencyCheck (st : VState) (research : Json) (path : String) (index : Nat) (year : Int) :
    VState :=
  match research.getField "year" with
  | some (.num y) =>
    if y < year - 10 then
      addWarning st (path ++ "[" ++ toString index ++ "]: Research is over 10 years old (" ++ toString y ++ ")")
    else st
  | _ => st

/-- part_000 lines 267-291, `validateResearchSpecific`: DOI format warning,
then quality-vs-evidence warning, then recency warning. -/
def validateResearchSpecific (st : VState) (research : Json) (path : String) (index : Nat)
    (year : Int) : VState × Option String :=
  match doiCheck st research path index with
  | (st1, some m) => (st1, some m)
  | (st1, none) =>
    (recencyCheck (qualityEvidenceCheck st1 research path index) research path index year, none)

/-- part_000 lines 244-247: the language consistency warning of
`validateContentItem`. -/
def languageCheck (st : VState) (item : Json) (lang path : String) (index : Nat) : VState :=
  match item.getField "language" with
  | some l =>
    if l.truthy && l != Json.str lang then
      addWarning st (path ++ "[" ++ toString index ++ "]: Language mismatch (expected " ++ lang ++ ", got " ++ jsStringOf l ++ ")")
    else st
  | none => st

/-- part_000 lines 228-248, `validateContentItem`. The callers pass
`contentType ∈ {'habits', 'research'}` (never `'locales'`, which is handled
separately in `validateContentFile`). For `'research'`,
`this.compiledSchemas['research']` exists and validation proceeds; the
business dispatch `contentType === 'habit'` never matches `'habits'`, and
worse, `this.compiledSchemas['habits']` is `undefined` (the schema was
registered under the key `'habit'`, see lines 38-39 and 108-111), so the
very first call `validate(item)` throws
`TypeError: validate is not a function`, which the caller catches. -/
def validateContentItem (st : VState) (item : Json) (ct lang path : String) (index : Nat)
    (year : Int) : VState × Option String :=
  if ct == "research" then
    let st := (researchSchemaErrors year item).foldl
      (fun st e => addError st (path ++ "[" ++ toString index ++ "]: " ++ e.1 ++ " " ++ e.2)) st
    match validateResearchSpecific st item path index year with
    | (st, some m) => (st, some m)
    | (st, none) => (languageCheck st item lang path index, none)
  else
    (st, some "validate is not a function")

/-- part_000 lines 206-226, `validateContentFile`: locales are validated as
one map; habits/research must be an array, validated element-wise. -/
def validateContentFile (st : VState) (content : Json) (ct lang path : String) (year : Int) :
    VState × Option String :=
  if ct == "locales" then
    ((localesSchemaErrors content).foldl
       (fun st e => addError st (path ++ ": " ++ e.1 ++ " " ++ e.2)) st, none)
  else
    match content with
    | .arr items =>
      foldE (fun st p => validateContentItem st p.2 ct lang path p.1 year) st items.enum
    | _ => (addError st (path ++ ": Content must be an array"), none)

/-- part_000 lines 185-201: the per-language body of `validateContentType`.
A missing file warns and continues; `JSON.parse` failure is caught and
reported as an error; an exception thrown inside `validateContentFile` is
caught by the same catch block and reported with the same
`Invalid JSON in ...` prefix; `stats.filesValidated` is only incremented
when `validateContentFile` returns normally. -/
def validateContentTypeLang (fs : FS) (year : Int) (ct : String) (st : VState) (lang : String) :
    VState :=
  match fs ct lang with
  | .absent => addWarning st ("Missing " ++ ct ++ " file for " ++ lang ++ ": " ++ contentPath ct lang)
  | .malformed m => addError st ("Invalid JSON in " ++ contentPath ct lang ++ ": " ++ m)
  | .ok j =>
    match validateContentFile st j ct lang (contentPath ct lang) year with
    | (st1, none) => { st1 with filesValidated := st1.filesValidated + 1 }
    | (st1, some m) => addError st1 ("Invalid JSON in " ++ contentPath ct lang ++ ": " ++ m)

/-- part_000 lines 182-204, `validateContentType`. -/
def validateContentType (fs : FS) (year : Int) (ct : String) (st : VState) : VState :=
  supportedLanguages.foldl (validateContentTypeLang fs year ct) st

/-- The `for (const contentType of this.contentTypes)` loop of
`validateAll` (part_000 lines 131-133). -/
def validateContentTypesStage (fs : FS) (year : Int) (st : VState) : VState :=
  contentTypes.foldl (fun st ct => validateContentType fs year ct st) st

/-- part_000 lines 156-177: required directories and missing-file warnings
of `validateContentStructure`. -/
def requiredDirs : List String :=
  ["src/content/habits", "src/content/research", "src/content/locales", "src/content/metadata"]

/-- The inner missing-file check of `validateContentStructure`
(part_000 lines 170-177). -/
def structureFileCheck (fs : FS) (st : VState) (ct lang : String) : VState :=
  if fileExists fs ct lang then st
  else addWarning st ("Missing content file: " ++ contentPath ct lang)

/-- part_000 lines 153-180, `validateContentStructure`. -/
def validateContentStructure (dirs : String → Bool) (fs : FS) (st : VState) : VState :=
  let st := requiredDirs.foldl
    (fun st d => if dirs d then st else addError st ("Missing required directory: " ++ d)) st
  contentTypes.foldl
    (fun st ct => supportedLanguages.foldl (fun st lang => structureFileCheck fs st ct lang) st) st

/-- part_000 lines 296-304: the research-id collection loop of
`validateCrossReferences`. Unlike everywhere else in the script, the files
are re-read with a bare `JSON.parse(fs.readFileSync(...))` with no
try/catch, so a malformed file (or non-array content, via
`research.forEach`) throws out of the whole stage. -/
def crossRefCollectStep (fs : FS) (acc : Except String (List (Option Json))) (lang : String) :
    Except String (List (Option Json)) :=
  match acc with
  | .error m => .error m
  | .ok ids =>
    match fs "research" lang with
    | .absent => .ok ids
    | .malformed m => .error m
    | .ok (.arr items) => .ok (ids ++ items.map (fun it => it.getField "id"))
    | .ok _ => .error "research.forEach is not a function"

def crossRefCollect (fs : FS) : Except String (List (Option Json)) :=
  supportedLanguages.foldl (crossRefCollectStep fs) (.ok [])

/-- part_000 lines 307-321: the habit-source check of
`validateCrossReferences` for one language (again a bare `JSON.parse`). -/
def crossRefHabitsLang (fs : FS) (ids : List (Option Json)) (st : VState) (lang : String) :
    VState × Option String :=
  match fs "habits" lang with
  | .absent => (st, none)
  | .malformed m => (st, some m)
  | .ok (.arr hs) =>
    foldE (fun st p =>
      match (p.2 : Json).getField "sources" with
      | none => (st, none)
      | some s =>
        if s.truthy then
          match s with
          | .arr srcs =>
            (srcs.foldl (fun st src =>
               if ids.contains (some src) then st
               else addWarning st (contentPath "habits" lang ++ "[" ++ toString p.1 ++ "]: References unknown research: " ++ jsStringOf src)) st,
             none)
          | _ => (st, some "habit.sources.forEach is not a function")
        else (st, none)) st hs.enum
  | .ok _ => (st, some "habits.forEach is not a function")

/-- part_000 lines 293-324, `validateCrossReferences`. -/
def validateCrossReferences (fs : FS) (st : VState) : VState × Option String :=
  match crossRefCollect fs with
  | .error m => (st, some m)
  | .ok ids => foldE (crossRefHabitsLang fs ids) st supportedLanguages

/-- part_000 lines 425-435, `loadContentSafely`: absent file yields the
empty-equivalent value silently; a parse failure is caught, reported as an
error, and also yields the empty-equivalent value. -/
def loadContentSafely (fs : FS) (ct lang : String) (st : VState) : VState × Json :=
  match fs ct lang with
  | .absent => (st, if ct == "locales" then Json.obj [] else Json.arr [])
  | .malformed m =>
    (addError st ("Failed to load " ++ contentPath ct lang ++ ": " ++ m),
     if ct == "locales" then Json.obj [] else Json.arr [])
  | .ok j => (st, j)

/-- `list.map(h => h.id)` on a loaded value: throws unless the value is an
array; `h.id` of a non-object element is `undefined`. -/
def mapIds : Json → Except String (List (Option Json))
  | .arr xs => .ok (xs.map (fun h => h.getField "id"))
  | _ => .error "map is not a function"

/-- `Object.keys` of a loaded value: object keys, array/string index names,
empty for other primitives, and a `TypeError` on `null`. -/
def objectKeys : Json → Except String (List String)
  | .obj fields => .ok (fields.map (fun kv => kv.1))
  | .arr xs => .ok ((List.range xs.length).map toString)
  | .str s => .ok ((List.range s.length).map toString)
  | .num _ => .ok []
  | .bool _ => .ok []
  | .null => .error "Cannot convert undefined or null to object"

/-- `missing.slice(0, bound).join(', ')` followed by `'...'` when more than
`bound` entries are missing (part_000 lines 339, 353, 367). -/
def previewOJ (missing : List (Option Json)) (bound : Nat) : String :=
  joinSep ", " ((missing.take bound).map jsJoinElem) ++ (if bound < missing.length then "..." else "")

/-- One non-baseline language of a record-translation block of
`validateTranslationCompleteness` (part_000 lines 333-341 and 347-355). -/
def transRecordsLang (fs : FS) (ct label : String) (bound : Nat) (enSet : List (Option Json))
    (st : VState) (lang : String) : VState × Option String :=
  match loadContentSafely fs ct lang st with
  | (st, lJ) =>
    match mapIds lJ with
    | .error m => (st, some m)
    | .ok lIds =>
      let missing := enSet.filter (fun id => !lIds.contains id)
      if 0 < missing.length then
        (addWarning st ("Missing " ++ lang ++ " translations for " ++ label ++ ": " ++ previewOJ missing bound), none)
      else (st, none)

/-- A whole record-translation block (baseline load + per-language loop);
instantiated with (ct = habits, bound = 5) and (ct = research, bound = 3). -/
def transRecordsBlock (fs : FS) (ct label : String) (bound : Nat) (st : VState) :
    VState × Option String :=
  match loadContentSafely fs ct "en" st with
  | (st, enJ) =>
    match mapIds enJ with
    | .error m => (st, some m)
    | .ok enIds =>
      foldE (transRecordsLang fs ct label bound (dedupOJ enIds)) st
        (supportedLanguages.filter (fun l => l != "en"))

/-- One non-baseline language of the locale-key block
(part_000 lines 361-369). -/
def transLocalesLang (fs : FS) (enKeys : List String) (st : VState) (lang : String) :
    VState × Option String :=
  match loadContentSafely fs "locales" lang st with
  | (st, lJ) =>
    match objectKeys lJ with
    | .error m => (st, some m)
    | .ok lKeys =>
      let missing := enKeys.filter (fun k => !lKeys.contains k)
      if 0 < missing.length then
        (addWarning st ("Missing " ++ lang ++ " locale keys: " ++ joinSep ", " (missing.take 5) ++ (if 5 < missing.length then "..." else "")), none)
      else (st, none)

/-- The locale-key block of `validateTranslationCompleteness`
(part_000 lines 357-369). -/
def transLocalesBlock (fs : FS) (st : VState) : VState × Option String :=
  match loadContentSafely fs "locales" "en" st with
  | (st, enJ) =>
    match objectKeys enJ with
    | .error m => (st, some m)
    | .ok enKeys =>
      foldE (transLocalesLang fs (dedupStr enKeys)) st
        (supportedLanguages.filter (fun l => l != "en"))

/-- part_000 lines 326-372, `validateTranslationCompleteness`: habits, then
research, then locale keys, comparing every non-baseline language against
the `'en'` baseline. -/
def validateTranslationCompleteness (fs : FS) (st : VState) : VState × Option String :=
  match transRecordsBlock fs "habits" "habits" 5 st with
  | (st, some m) => (st, some m)
  | (st, none) =>
    match transRecordsBlock fs "research" "research" 3 st with
    | (st, some m) => (st, some m)
    | (st, none) => transLocalesBlock fs st

/-- The word count of a content item: `(a + ' ' + b).split(/\s+/).length`
with JavaScript string coercion. -/
def itemWordCount (a b : Option Json) : Nat :=
  (jsSplitWs (jsCoerceStr a ++ " " ++ jsCoerceStr b)).length

/-- The low-word-count warning of the quality loop (part_000 lines 388-390
and 405-407), with `kind` being `Habit` or `Research`. -/
def lowWordCountWarn (st : VState) (kind : String) (idv : Option Json) (wc bound : Nat) :
    VState :=
  if wc < bound then
    addWarning st (kind ++ " " ++ jsCoerceStr idv ++ " has low word count (" ++ toString wc ++ " words)")
  else st

/-- The placeholder-text check of the quality loop (part_000 lines 393-395
and 409-411): `field.includes('TODO') || field.includes('placeholder')` is
a hard ERROR; `.includes` throws on a value that is neither a string nor an
array. -/
def placeholderCheckField (st : VState) (kind : String) (idv fieldVal : Option Json) :
    VState × Option String :=
  match fieldVal with
  | some (.str s) =>
    (if strContains s "TODO" || strContains s "placeholder" then
       addError st (kind ++ " " ++ jsCoerceStr idv ++ " contains placeholder text")
     else st, none)
  | some (.arr xs) =>
    (if xs.contains (Json.str "TODO") || xs.contains (Json.str "placeholder") then
       addError st (kind ++ " " ++ jsCoerceStr idv ++ " contains placeholder text")
     else st, none)
  | _ => (st, some "includes is not a function")

/-- The per-habit body of the quality loop (part_000 lines 383-396): word
count from the coerced `title + ' ' + description`, low-word-count warning,
and the placeholder-text error. The accumulator carries
(state, totalWordCount, contentItems). -/
def qualityHabitStep (acc : VState × Nat × Nat) (habit : Json) :
    (VState × Nat × Nat) × Option String :=
  match acc with
  | (st, total, items) =>
    let wc := itemWordCount (habit.getField "title") (habit.getField "description")
    match placeholderCheckField (lowWordCountWarn st "Habit" (habit.getField "id") wc 20)
        "Habit" (habit.getField "id") (habit.getField "description") with
    | (st, o) => ((st, total + wc, items + 1), o)

/-- The per-article body of the quality loop (part_000 lines 399-412):
word count from `title + ' ' + summary`, bound 30, placeholder check on
`summary`. -/
def qualityResearchStep (acc : VState × Nat × Nat) (article : Json) :
    (VState × Nat × Nat) × Option String :=
  match acc with
  | (st, total, items) =>
    let wc := itemWordCount (article.getField "title") (article.getField "summary")
    match placeholderCheckField (lowWordCountWarn st "Research" (article.getField "id") wc 30)
        "Research" (article.getField "id") (article.getField "summary") with
    | (st, o) => ((st, total + wc, items + 1), o)

/-- One language of `validateContentQuality` (part_000 lines 380-413):
habits then research, through `loadContentSafely`. `forEach` on a
non-array loaded value throws. -/
def qualityLangStep (fs : FS) (acc : VState × Nat × Nat) (lang : String) :
    (VState × Nat × Nat) × Option String :=
  match acc with
  | (st, total, items) =>
    match loadContentSafely fs "habits" lang st with
    | (st, .arr hs) =>
      (match foldE qualityHabitStep (st, total, items) hs with
       | (acc1, some m) => (acc1, some m)
       | ((st, total, items), none) =>
         match loadContentSafely fs "research" lang st with
         | (st, .arr rs) => foldE qualityResearchStep (st, total, items) rs
         | (st, _) => ((st, total, items), some "forEach is not a function"))
    | (st, _) => ((st, total, items), some "forEach is not a function")

/-- part_000 lines 374-423, `validateContentQuality`. When `contentItems`
is zero, `totalWordCount / contentItems` is `NaN`, `Math.round(NaN)` is
`NaN`, and `NaN < 50` is false, so no average warning is emitted. -/
def validateContentQuality (fs : FS) (st : VState) : VState × Option String :=
  match foldE (qualityLangStep fs) (st, 0, 0) supportedLanguages with
  | ((st, _, _), some m) => (st, some m)
  | ((st, total, items), none) =>
    (if items != 0 && jsRound total items < 50 then
       addWarning st "Overall content word count is below recommended minimum"
     else st, none)

/-- The JSON report written by `generateReport` (part_000 lines 490-497),
with the wall-clock fields (`timestamp`, `validationTime`) supplied as
parameters. -/
structure Report where
  timestamp : String
  filesValidated : Nat
  totalErrors : Nat
  totalWarnings : Nat
  validationTime : Nat
  errors : List String
  warnings : List String
  passed : Bool
deriving Repr, DecidableEq

def generateReport (st : VState) (timestamp : String) (elapsed : Nat) : Report :=
  { timestamp := timestamp, filesValidated := st.filesValidated,
    totalErrors := st.totalErrors, totalWarnings := st.totalWarnings,
    validationTime := elapsed, errors := st.errors, warnings := st.warnings,
    passed := st.errors.isEmpty }

/-- Outcome of `validateAll` (part_000 lines 121-151): either
`generateReport` ran and the process exited with
`errors.length > 0 ? 1 : 0` (line 503), or an exception escaped a stage,
was caught at line 147, and the process exited with code 1 without any
report. -/
inductive RunResult where
  | completed (report : Report) (exitCode : Nat)
  | crashed (st : VState) (msg : String)
deriving Repr, DecidableEq

/-- The stage sequence of `validateAll`: structure, per-type validation,
cross-references, translation completeness, quality. The first three
stages cannot throw (all their file accesses are guarded); the last three
can. -/
def runCore (dirs : String → Bool) (fs : FS) (year : Int) : VState ⊕ (VState × String) :=
  let st := validateContentStructure dirs fs initState
  let st := validateContentTypesStage fs year st
  match validateCrossReferences fs st with
  | (st, some m) => .inr (st, m)
  | (st, none) =>
    match validateTranslationCompleteness fs st with
    | (st, some m) => .inr (st, m)
    | (st, none) =>
      match validateContentQuality fs st with
      | (st, some m) => .inr (st, m)
      | (st, none) => .inl st

/-- One full validator run over a fixed file set, current year, and
wall-clock readings. -/
def runValidator (dirs : String → Bool) (fs : FS) (year : Int) (timestamp : String)
    (elapsed : Nat) : RunResult :=
  match runCore dirs fs year with
  | .inl st => .completed (generateReport st timestamp elapsed) (if 0 < st.errors.length then 1 else 0)
  | .inr (st, m) => .crashed st m

def coreState : VState ⊕ (VState × String) → VState
  | .inl st => st
  | .inr (st, _) => st

def finalErrors : RunResult → List String
  | .completed rep _ => rep.errors
  | .crashed st _ => st.errors

def finalWarnings : RunResult → List String
  | .completed rep _ => rep.warnings
  | .crashed st _ => st.warnings

def completedQ : RunResult → Bool
  | .completed _ _ => true
  | .crashed _ _ => false

/-- The loop body of `checkDuplicateIds` in
`tests/content-validation.test.js` lines 231-237: the pair carries the
`fileIds` set and the `fileDuplicates` set; `if (habit.id)` only considers
truthy ids; an id already seen is added (once) to the duplicate set. -/
def dupStep (p : List Json × List Json) (h : Json) : List Json × List Json :=
  match h.getField "id" with
  | some idv =>
    if idv.truthy then
      (if p.1.contains idv then
         (p.1, if p.2.contains idv then p.2 else p.2 ++ [idv])
       else (p.1 ++ [idv], p.2))
    else p
  | none => p

/-- `tests/content-validation.test.js` lines 228-238, `checkDuplicateIds`:
the insertion-ordered duplicated-id set of one file. -/
def fileDuplicates (habits : List Json) : List Json :=
  (habits.foldl dupStep ([], [])).2

/-- `tests/content-validation.test.js` lines 240-242: when the duplicated-id
set of a file is non-empty, ONE error is pushed for that file, joining all
duplicated ids. -/
def checkDuplicateIdsFile (file : String) (habits : List Json) : List String :=
  let dups := fileDuplicates habits
  if 0 < dups.length then
    ["Duplicate habit IDs in " ++ file ++ ": " ++ joinSep ", " (dups.map jsStringOf)]
  else []

/-- The per-file loop of `checkDuplicateIds` over the required files. -/
def checkDuplicateIds (files : List (String × List Json)) : List String :=
  files.foldl (fun errs f => errs ++ checkDuplicateIdsFile f.1 f.2) []

/-- The id values that `checkDuplicateIds` counts: the truthy `id` fields
of the records, in order. -/
def truthyIds (habits : List Json) : List Json :=
  habits.filterMap (fun h =>
    match h.getField "id" with
    | some v => if v.truthy then some v else none
    | none => none)

/-- Number of occurrences of an id value in a list. -/
def occJson (v : Json) (l : List Json) : Nat := (l.filter (fun x => x == v)).length

/-- A minimal record carrying only an `id` field, for building id-keyed
file fixtures. -/
def mkIdObj (s : String) : Json := .obj [("id", .str s)]

/-- A locale map whose keys are the given list. -/
def mkLocaleObj (keys : List String) : Json :=
  .obj (keys.map (fun k => (k, Json.str "text")))

/-- A file set in which every habits/research file is an array of records
with the given ids and every locales file has the given keys; used to state
the translation-completeness claim. -/
def mkContentFs (h r l : String → List String) : FS := fun ct lang =>
  if ct == "habits" then .ok (.arr ((h lang).map mkIdObj))
  else if ct == "research" then .ok (.arr ((r lang).map mkIdObj))
  else .ok (mkLocaleObj (l lang))

/-- Spec-side definition (spec section 4.5): the set difference
"baseline ids minus this language's ids", in baseline order, each id
counted once. -/
def specMissingIds (base mine : List String) : List String :=
  (dedupStr base).filter (fun x => !mine.contains x)

/-- Spec-side definition: the bounded preview "first `bound` missing ids,
plus an indication of more". -/
def specPreview (missing : List String) (bound : Nat) : String :=
  joinSep ", " (missing.take bound) ++ (if bound < missing.length then "..." else "")

/-- Spec-side definition: zero warnings when the difference is empty,
exactly one warning naming the missing ids otherwise. -/
def specBlockWarnings (base mine : List String) (msgOf : List String → String) : List String :=
  let missing := specMissingIds base mine
  if 0 < missing.length then [msgOf missing] else []

def nonBaselineLanguages : List String := supportedLanguages.filter (fun lng => lng != "en")

/-- Spec-side definition of the complete set of translation-completeness
warnings: for every content type and every non-baseline language, one
warning exactly when the baseline-minus-language difference is non-empty,
naming the missing ids/keys with a bounded preview. -/
def specCompletenessWarnings (h r l : String → List String) : List String :=
  (nonBaselineLanguages.flatMap (fun lng =>
     specBlockWarnings (h "en") (h lng)
       (fun m => "Missing " ++ lng ++ " translations for " ++ "habits" ++ ": " ++ specPreview m 5)))
  ++ (nonBaselineLanguages.flatMap (fun lng =>
     specBlockWarnings (r "en") (r lng)
       (fun m => "Missing " ++ lng ++ " translations for " ++ "research" ++ ": " ++ specPreview m 3)))
  ++ (nonBaselineLanguages.flatMap (fun lng =>
     specBlockWarnings (l "en") (l lng)
       (fun m => "Missing " ++ lng ++ " locale keys: " ++ specPreview m 5)))

/-- A directory layout in which all required directories exist. -/
def dirsAll : String → Bool := fun _ => true

/-- A file set with no content files at all. -/
def fsAllAbsent : FS := fun _ _ => .absent

/-- A habit record that satisfies every constraint of the habit schema:
all required fields present, `id` matching `^[a-z0-9-]+$`, title length
in 5..100, description length in 20..500, category/difficulty/language in
their enums, `timeMinutes` in 1..180, and no undeclared fields. -/
def goodHabit : Json := .obj
  [("id", .str "morning-walk"),
   ("title", .str "Take a morning walk"),
   ("description", .str "Walk outside for ten minutes right after waking up."),
   ("category", .str "exercise"),
   ("difficulty", .str "beginner"),
   ("timeMinutes", .num 10),
   ("language", .str "en")]

/-- A file set whose only file is a habits file containing exactly the one
schema-conforming habit record. -/
def fsC1 : FS := fun ct lang =>
  if ct == "habits" && lang == "en" then .ok (.arr [goodHabit]) else .absent

/-- A file set whose only file is a research file that exists but does not
parse as JSON (`JSON.parse` throws "Unexpected end of JSON input"). -/
def fsC2 : FS := fun ct lang =>
  if ct == "research" && lang == "en" then .malformed "Unexpected end of JSON input"
  else .absent

/-- A schema-conforming habit record with `researchBacked: true` and no
`sources` field. -/
def c4Habit : Json := .obj
  [("id", .str "evening-reading"),
   ("title", .str "Read before going to bed"),
   ("description", .str "Read a paper book for fifteen minutes before sleeping."),
   ("category", .str "sleep"),
   ("difficulty", .str "beginner"),
   ("timeMinutes", .num 15),
   ("language", .str "en"),
   ("researchBacked", .bool true)]

/-- A file set whose only file is a habits file containing exactly the one
research-backed, sourceless habit record. -/
def fsC4 : FS := fun ct lang =>
  if ct == "habits" && lang == "en" then .ok (.arr [c4Habit]) else .absent

/-- The message of the exception that aborted the run, if any. -/
def crashMsg : RunResult → Option String
  | .completed _ _ => none
  | .crashed _ m => some m

def reportOfRun : RunResult → Report
  | .completed rep _ => rep
  | .crashed st _ => generateReport st "" 0

def exitCodeOfRun : RunResult → Nat
  | .completed _ c => c
  | .crashed _ _ => 1

/-- Report equality up to the two wall-clock fields (`timestamp` and
`validationTime`): same errors in the same order, same warnings in the
same order, same counters, same passed flag. -/
def Report.sameExceptTime (a b : Report) : Prop :=
  a.errors = b.errors ∧ a.warnings = b.warnings ∧ a.filesValidated = b.filesValidated ∧
  a.totalErrors = b.totalErrors ∧ a.totalWarnings = b.totalWarnings ∧ a.passed = b.passed

/-- Run-outcome equality up to wall-clock fields, including equal exit
codes and identical crash states. -/
def RunResult.sameExceptTime : RunResult → RunResult → Prop
  | .completed r1 c1, .completed r2 c2 => Report.sameExceptTime r1 r2 ∧ c1 = c2
  | .crashed s1 m1, .crashed s2 m2 => s1 = s2 ∧ m1 = m2
  | _, _ => False

/-- The counter/list agreement invariant of the issue accumulator. -/
def CountersAgree (st : VState) : Prop :=
  st.totalErrors = st.errors.length ∧ st.totalWarnings = st.warnings.length

/-- C1. The claim states that a habits file record conforming to the habit
schema yields zero structural errors. The code refutes this: `goodHabit`
conforms to the registered habit schema, yet validating a habits file
containing only this record reports an error for the file, because
`validateContentItem` looks up `this.compiledSchemas['habits']` while the
schema was registered under the key `'habit'`; the resulting `undefined`
is called as a function, the `TypeError` is caught by the enclosing
try/catch of `validateContentType`, and surfaces as an
`Invalid JSON in ...` error. -/
theorem c1_valid_habit_record_still_errors :
    conformsToHabitSchema goodHabit = true
    ∧ "Invalid JSON in src/content/habits/en.json: validate is not a function"
        ∈ finalErrors (runValidator dirsAll fsC1 2025 "ts" 0)
    ∧ finalErrors (runValidator dirsAll fsC1 2025 "ts" 0) ≠ [] := by
  refine ⟨by decide, by decide, by decide⟩

/-- C2. The claim states that a parse failure in one file is reported, the
file is replaced by its empty-equivalent value, and every remaining stage
still runs to completion. The code refutes this: with a single malformed
research file, `validateContentType` does catch the failure and report it
(second conjunct), but `validateCrossReferences` re-reads the same file
with a bare `JSON.parse`, the exception escapes the stage, and the whole
run aborts (first and third conjuncts) with no report generated. -/
theorem c2_parse_error_aborts_whole_run :
    completedQ (runValidator dirsAll fsC2 2025 "ts" 0) = false
    ∧ "Invalid JSON in src/content/research/en.json: Unexpected end of JSON input"
        ∈ finalErrors (runValidator dirsAll fsC2 2025 "ts" 0)
    ∧ crashMsg (runValidator dirsAll fsC2 2025 "ts" 0) = some "Unexpected end of JSON input" := by
  refine ⟨by decide, by decide, by decide⟩

/-- C4. The claim states that a habit with `researchBacked: true` and no
sources produces a warning. The rule exists in `validateHabitSpecific`
(first conjunct: applied directly, it emits exactly the expected warning),
but the pipeline never calls it: the dispatch compares `contentType` to
`'habit'` while the iterated type is `'habits'`, and the schema-lookup
`TypeError` aborts the item validation first. Hence a run over a habits
file containing exactly such a record emits no warning mentioning
research-backing at all (the run completes; its warnings are only the
missing-file, translation and word-count ones). -/
theorem c4_research_backed_warning_never_emitted :
    validateHabitSpecific initState c4Habit (contentPath "habits" "en") 0
      = (addWarning initState "src/content/habits/en.json[0]: Habit marked as research-backed but has no sources", none)
    ∧ conformsToHabitSchema c4Habit = true
    ∧ completedQ (runValidator dirsAll fsC4 2025 "ts" 0) = true
    ∧ (finalWarnings (runValidator dirsAll fsC4 2025 "ts" 0)).all
        (fun w => !strContains w "research-backed") = true := by
  refine ⟨by decide, by decide, by decide, by decide⟩

/-- C5. A habits or research file whose content is valid JSON but a single
object (not an array) gets exactly one "Content must be an array" error
and no element-level checks: `validateContentFile` on an object is
precisely one `addError` with that message — no item validation, no other
state change, no exception. -/
theorem c5_non_array_single_error (st : VState) (ct lang : String)
    (fields : List (String × Json)) (year : Int)
    (h : ct = "habits" ∨ ct = "research") :
    validateContentFile st (Json.obj fields) ct lang (contentPath ct lang) year
      = (addError st (contentPath ct lang ++ ": Content must be an array"), none) := by
  rcases h with h | h <;> subst h <;> rfl

theorem c5_witness :
    validateContentFile initState (Json.obj []) "habits" "en" (contentPath "habits" "en") 2025
      = (addError initState (contentPath "habits" "en" ++ ": Content must be an array"), none) :=
  c5_non_array_single_error initState "habits" "en" [] 2025 (Or.inl rfl)

/-- C9. Determinism of the validator: two runs over the same file set,
directory layout and current year produce identical outcomes — the same
errors in the same order, the same warnings in the same order, the same
counters, passed flag and exit code — regardless of the wall-clock
readings, which only enter the report's `timestamp` and `validationTime`
fields. -/
theorem c9_idempotent_reports (dirs : String → Bool) (fs : FS) (year : Int)
    (ts1 ts2 : String) (e1 e2 : Nat) :
    RunResult.sameExceptTime (runValidator dirs fs year ts1 e1) (runValidator dirs fs year ts2 e2) := by
  unfold runValidator
  cases runCore dirs fs year with
  | inl st => exact ⟨⟨rfl, rfl, rfl, rfl, rfl, rfl⟩, rfl⟩
  | inr p => cases p with
    | mk st m => exact ⟨rfl, rfl⟩

theorem countersAgree_init : CountersAgree initState := ⟨rfl, rfl⟩

theorem countersAgree_addError (st : VState) (m : String) (h : CountersAgree st) :
    CountersAgree (addError st m) := by
  obtain ⟨h1, h2⟩ := h
  exact ⟨by simp [addError, h1], by simp [addError, h2]⟩

theorem countersAgree_addWarning (st : VState) (m : String) (h : CountersAgree st) :
    CountersAgree (addWarning st m) := by
  obtain ⟨h1, h2⟩ := h
  exact ⟨by simp [addWarning, h1], by simp [addWarning, h2]⟩

theorem countersAgree_foldl {α : Type} {f : VState → α → VState}
    (hf : ∀ st x, CountersAgree st → CountersAgree (f st x)) :
    ∀ (xs : List α) (st : VState), CountersAgree st → CountersAgree (List.foldl f st xs) := by
  intro xs
  induction xs with
  | nil => intro st h; simpa using h
  | cons x xs ih =>
    intro st h
    simpa [List.foldl] using ih (f st x) (hf st x h)

theorem countersAgree_foldE {σ α : Type} (proj : σ → VState) {f : σ → α → σ × Option String}
    (hf : ∀ s x, CountersAgree (proj s) → CountersAgree (proj (f s x).1)) :
    ∀ (xs : List α) (s : σ), CountersAgree (proj s) → CountersAgree (proj (foldE f s xs).1) := by
  intro xs
  induction xs with
  | nil => intro s h; simpa [foldE] using h
  | cons x xs ih =>
    intro s h
    have h1 : CountersAgree (proj (f s x).1) := hf s x h
    cases hfx : f s x with
    | mk s1 o =>
      rw [hfx] at h1
      cases o with
      | some m => simpa [foldE, hfx] using h1
      | none => simpa [foldE, hfx] using ih s1 h1

theorem countersAgree_appendWarnings (st : VState) (msgs : List String) (h : CountersAgree st) :
    CountersAgree (appendWarnings st msgs) :=
  countersAgree_foldl (fun st m h => countersAgree_addWarning st m h) msgs st h

theorem countersAgree_structureFileCheck (fs : FS) (st : VState) (ct lang : String)
    (h : CountersAgree st) : CountersAgree (structureFileCheck fs st ct lang) := by
  unfold structureFileCheck
  split
  · exact h
  · exact countersAgree_addWarning _ _ h

theorem countersAgree_validateContentStructure (dirs : String → Bool) (fs : FS) (st : VState)
    (h : CountersAgree st) : CountersAgree (validateContentStructure dirs fs st) := by
  unfold validateContentStructure
  refine countersAgree_foldl (fun st ct h => ?_) _ _
    (countersAgree_foldl (fun st d h => ?_) _ _ h)
  · exact countersAgree_foldl (fun st lang h => countersAgree_structureFileCheck fs st ct lang h) _ _ h
  · split
    · exact h
    · exact countersAgree_addError _ _ h

theorem countersAgree_languageCheck (st : VState) (item : Json) (lang path : String) (index : Nat)
    (h : CountersAgree st) : CountersAgree (languageCheck st item lang path index) := by
  unfold languageCheck
  split
  · split
    · exact countersAgree_addWarning _ _ h
    · exact h
  · exact h

theorem countersAgree_doiCheck (st : VState) (research : Json) (path : String) (index : Nat)
    (h : CountersAgree st) : CountersAgree (doiCheck st research path index).1 := by
  unfold doiCheck
  split
  · split
    · exact countersAgree_addWarning _ _ h
    · exact h
  · split
    · exact h
    · exact h
  · exact h

theorem countersAgree_qualityEvidenceCheck (st : VState) (research : Json) (path : String)
    (index : Nat) (h : CountersAgree st) :
    CountersAgree (qualityEvidenceCheck st research path index) := by
  unfold qualityEvidenceCheck
  split
  · split
    · split
      · exact countersAgree_addWarning _ _ h
      · exact h
    · exact h
  · exact h

theorem countersAgree_recencyCheck (st : VState) (research : Json) (path : String)
    (index : Nat) (year : Int) (h : CountersAgree st) :
    CountersAgree (recencyCheck st research path index year) := by
  unfold recencyCheck
  split
  · split
    · exact countersAgree_addWarning _ _ h
    · exact h
  · exact h

theorem countersAgree_validateResearchSpecific (st : VState) (research : Json) (path : String)
    (index : Nat) (year : Int) (h : CountersAgree st) :
    CountersAgree (validateResearchSpecific st research path index year).1 := by
  unfold validateResearchSpecific
  have hd := countersAgree_doiCheck st research path index h
  split
  next st1 m heq => rw [heq] at hd; exact hd
  next st1 heq =>
    rw [heq] at hd
    exact countersAgree_recencyCheck _ _ _ _ _ (countersAgree_qualityEvidenceCheck _ _ _ _ hd)

theorem countersAgree_validateContentItem (st : VState) (item : Json) (ct lang path : String)
    (index : Nat) (year : Int) (h : CountersAgree st) :
    CountersAgree (validateContentItem st item ct lang path index year).1 := by
  unfold validateContentItem
  split
  · dsimp only
    have h1 : CountersAgree ((researchSchemaErrors year item).foldl
        (fun st e => addError st (path ++ "[" ++ toString index ++ "]: " ++ e.1 ++ " " ++ e.2)) st) :=
      countersAgree_foldl (fun st e h => countersAgree_addError st _ h) _ _ h
    have h2 := countersAgree_validateResearchSpecific _ item path index year h1
    cases hv : validateResearchSpecific ((researchSchemaErrors year item).foldl
        (fun st e => addError st (path ++ "[" ++ toString index ++ "]: " ++ e.1 ++ " " ++ e.2)) st)
        item path index year with
    | mk st2 o =>
      rw [hv] at h2
      cases o with
      | none => exact countersAgree_languageCheck _ _ _ _ _ h2
      | some m => exact h2
  · exact h

theorem countersAgree_validateContentFile (st : VState) (content : Json) (ct lang path : String)
    (year : Int) (h : CountersAgree st) :
    CountersAgree (validateContentFile st content ct lang path year).1 := by
  unfold validateContentFile
  split
  · exact countersAgree_foldl (fun st e h => countersAgree_addError st _ h) _ _ h
  · split
    · exact countersAgree_foldE (fun s => s)
        (fun s p hp => countersAgree_validateContentItem s p.2 ct lang path p.1 year hp) _ _ h
    · exact countersAgree_addError _ _ h

theorem countersAgree_validateContentTypeLang (fs : FS) (year : Int) (ct : String) (st : VState)
    (lang : String) (h : CountersAgree st) :
    CountersAgree (validateContentTypeLang fs year ct st lang) := by
  unfold validateContentTypeLang
  cases hfs : fs ct lang with
  | absent => exact countersAgree_addWarning _ _ h
  | malformed m => exact countersAgree_addError _ _ h
  | ok j =>
    dsimp only
    have h1 := countersAgree_validateContentFile st j ct lang (contentPath ct lang) year h
    cases hv : validateContentFile st j ct lang (contentPath ct lang) year with
    | mk st1 o =>
      rw [hv] at h1
      cases o with
      | none => exact ⟨h1.1, h1.2⟩
      | some m => exact countersAgree_addError _ _ h1

theorem countersAgree_validateContentTypesStage (fs : FS) (year : Int) (st : VState)
    (h : CountersAgree st) : CountersAgree (validateContentTypesStage fs year st) := by
  unfold validateContentTypesStage validateContentType
  exact countersAgree_foldl (fun st ct h =>
    countersAgree_foldl (fun st lang h => countersAgree_validateContentTypeLang fs year ct st lang h) _ _ h) _ _ h

theorem countersAgree_crossRefHabitsLang (fs : FS) (ids : List (Option Json)) (st : VState)
    (lang : String) (h : CountersAgree st) :
    CountersAgree (crossRefHabitsLang fs ids st lang).1 := by
  unfold crossRefHabitsLang
  cases hfs : fs "habits" lang with
  | absent => exact h
  | malformed m => exact h
  | ok j =>
    cases j <;> try exact h
    next hs =>
      dsimp only
      refine countersAgree_foldE (fun s => s) (fun s p hp => ?_) _ _ h
      dsimp only
      cases hg : Json.getField p.2 "sources" with
      | none => exact hp
      | some sv =>
        dsimp only
        split
        · cases sv <;> try exact hp
          next srcs =>
            dsimp only
            exact countersAgree_foldl
              (fun st src hsx => by
                split
                · exact hsx
                · exact countersAgree_addWarning _ _ hsx) _ _ hp
        · exact hp

theorem countersAgree_validateCrossReferences (fs : FS) (st : VState) (h : CountersAgree st) :
    CountersAgree (validateCrossReferences fs st).1 := by
  unfold validateCrossReferences
  cases hc : crossRefCollect fs with
  | error m => exact h
  | ok ids =>
    exact countersAgree_foldE (fun s => s)
      (fun s lang hs => countersAgree_crossRefHabitsLang fs ids s lang hs) _ _ h

theorem countersAgree_loadContentSafely (fs : FS) (ct lang : String) (st : VState)
    (h : CountersAgree st) : CountersAgree (loadContentSafely fs ct lang st).1 := by
  unfold loadContentSafely
  cases hfs : fs ct lang with
  | absent => exact h
  | malformed m => exact countersAgree_addError _ _ h
  | ok j => exact h

theorem countersAgree_transRecordsLang (fs : FS) (ct label : String) (bound : Nat)
    (enSet : List (Option Json)) (st : VState) (lang : String) (h : CountersAgree st) :
    CountersAgree (transRecordsLang fs ct label bound enSet st lang).1 := by
  unfold transRecordsLang
  have h1 := countersAgree_loadContentSafely fs ct lang st h
  cases hl : loadContentSafely fs ct lang st with
  | mk st1 lJ =>
    rw [hl] at h1
    dsimp only
    cases hm : mapIds lJ with
    | error m => exact h1
    | ok lIds =>
      dsimp only
      split
      · exact countersAgree_addWarning _ _ h1
      · exact h1

theorem countersAgree_transRecordsBlock (fs : FS) (ct label : String) (bound : Nat)
    (st : VState) (h : CountersAgree st) :
    CountersAgree (transRecordsBlock fs ct label bound st).1 := by
  unfold transRecordsBlock
  have h1 := countersAgree_loadContentSafely fs ct "en" st h
  cases hl : loadContentSafely fs ct "en" st with
  | mk st1 enJ =>
    rw [hl] at h1
    dsimp only
    cases hm : mapIds enJ with
    | error m => exact h1
    | ok enIds =>
      dsimp only
      exact countersAgree_foldE (fun s => s)
        (fun s lang hs => countersAgree_transRecordsLang fs ct label bound _ s lang hs) _ _ h1

theorem countersAgree_transLocalesLang (fs : FS) (enKeys : List String) (st : VState)
    (lang : String) (h : CountersAgree st) :
    CountersAgree (transLocalesLang fs enKeys st lang).1 := by
  unfold transLocalesLang
  have h1 := countersAgree_loadContentSafely fs "locales" lang st h
  cases hl : loadContentSafely fs "locales" lang st with
  | mk st1 lJ =>
    rw [hl] at h1
    dsimp only
    cases hm : objectKeys lJ with
    | error m => exact h1
    | ok lKeys =>
      dsimp only
      split
      · exact countersAgree_addWarning _ _ h1
      · exact h1

theorem countersAgree_transLocalesBlock (fs : FS) (st : VState) (h : CountersAgree st) :
    CountersAgree (transLocalesBlock fs st).1 := by
  unfold transLocalesBlock
  have h1 := countersAgree_loadContentSafely fs "locales" "en" st h
  cases hl : loadContentSafely fs "locales" "en" st with
  | mk st1 enJ =>
    rw [hl] at h1
    dsimp only
    cases hm : objectKeys enJ with
    | error m => exact h1
    | ok enKeys =>
      dsimp only
      exact countersAgree_foldE (fun s => s)
        (fun s lang hs => countersAgree_transLocalesLang fs _ s lang hs) _ _ h1

theorem countersAgree_validateTranslationCompleteness (fs : FS) (st : VState)
    (h : CountersAgree st) : CountersAgree (validateTranslationCompleteness fs st).1 := by
  unfold validateTranslationCompleteness
  have h1 := countersAgree_transRecordsBlock fs "habits" "habits" 5 st h
  cases hb : transRecordsBlock fs "habits" "habits" 5 st with
  | mk st1 o =>
    rw [hb] at h1
    cases o with
    | some m => exact h1
    | none =>
      dsimp only
      have h2 := countersAgree_transRecordsBlock fs "research" "research" 3 st1 h1
      cases hr : transRecordsBlock fs "research" "research" 3 st1 with
      | mk st2 o2 =>
        rw [hr] at h2
        cases o2 with
        | some m => exact h2
        | none => exact countersAgree_transLocalesBlock fs st2 h2

theorem countersAgree_lowWordCountWarn (st : VState) (kind : String) (idv : Option Json)
    (wc bound : Nat) (h : CountersAgree st) :
    CountersAgree (lowWordCountWarn st kind idv wc bound) := by
  unfold lowWordCountWarn
  split
  · exact countersAgree_addWarning _ _ h
  · exact h

theorem countersAgree_placeholderCheckField (st : VState) (kind : String) (idv fieldVal : Option Json)
    (h : CountersAgree st) : CountersAgree (placeholderCheckField st kind idv fieldVal).1 := by
  unfold placeholderCheckField
  split
  · split
    · exact countersAgree_addError _ _ h
    · exact h
  · split
    · exact countersAgree_addError _ _ h
    · exact h
  · exact h

theorem countersAgree_qualityHabitStep (acc : VState × Nat × Nat) (habit : Json)
    (h : CountersAgree acc.1) : CountersAgree (qualityHabitStep acc habit).1.1 := by
  obtain ⟨st, total, items⟩ := acc
  unfold qualityHabitStep
  dsimp only
  have h1 := countersAgree_placeholderCheckField
    (lowWordCountWarn st "Habit" (habit.getField "id")
      (itemWordCount (habit.getField "title") (habit.getField "description")) 20)
    "Habit" (habit.getField "id") (habit.getField "description")
    (countersAgree_lowWordCountWarn st _ _ _ _ h)
  cases hp : placeholderCheckField
      (lowWordCountWarn st "Habit" (habit.getField "id")
        (itemWordCount (habit.getField "title") (habit.getField "description")) 20)
      "Habit" (habit.getField "id") (habit.getField "description") with
  | mk st1 o =>
    rw [hp] at h1
    exact h1

theorem countersAgree_qualityResearchStep (acc : VState × Nat × Nat) (article : Json)
    (h : CountersAgree acc.1) : CountersAgree (qualityResearchStep acc article).1.1 := by
  obtain ⟨st, total, items⟩ := acc
  unfold qualityResearchStep
  dsimp only
  have h1 := countersAgree_placeholderCheckField
    (lowWordCountWarn st "Research" (article.getField "id")
      (itemWordCount (article.getField "title") (article.getField "summary")) 30)
    "Research" (article.getField "id") (article.getField "summary")
    (countersAgree_lowWordCountWarn st _ _ _ _ h)
  cases hp : placeholderCheckField
      (lowWordCountWarn st "Research" (article.getField "id")
        (itemWordCount (article.getField "title") (article.getField "summary")) 30)
      "Research" (article.getField "id") (article.getField "summary") with
  | mk st1 o =>
    rw [hp] at h1
    exact h1

theorem countersAgree_qualityLangStep (fs : FS) (acc : VState × Nat × Nat) (lang : String)
    (h : CountersAgree acc.1) : CountersAgree (qualityLangStep fs acc lang).1.1 := by
  obtain ⟨st, total, items⟩ := acc
  unfold qualityLangStep
  dsimp only
  have h1 := countersAgree_loadContentSafely fs "habits" lang st h
  cases hl : loadContentSafely fs "habits" lang st with
  | mk st1 jv =>
    rw [hl] at h1
    cases jv <;> try exact h1
    next hs =>
      dsimp only
      have h2 := countersAgree_foldE (fun s : VState × Nat × Nat => s.1)
        (fun s x hx => countersAgree_qualityHabitStep s x hx) hs (st1, total, items) h1
      cases hf : foldE qualityHabitStep (st1, total, items) hs with
      | mk acc1 o =>
        rw [hf] at h2
        cases o with
        | some m => exact h2
        | none =>
          obtain ⟨st2, total2, items2⟩ := acc1
          dsimp only
          have h3 := countersAgree_loadContentSafely fs "research" lang st2 h2
          cases hr : loadContentSafely fs "research" lang st2 with
          | mk st3 rv =>
            rw [hr] at h3
            cases rv <;> try exact h3
            next rs =>
              dsimp only
              exact countersAgree_foldE (fun s : VState × Nat × Nat => s.1)
                (fun s x hx => countersAgree_qualityResearchStep s x hx) rs (st3, total2, items2) h3

theorem countersAgree_validateContentQuality (fs : FS) (st : VState) (h : CountersAgree st) :
    CountersAgree (validateContentQuality fs st).1 := by
  unfold validateContentQuality
  have h1 := countersAgree_foldE (fun s : VState × Nat × Nat => s.1)
    (fun s lang hs => countersAgree_qualityLangStep fs s lang hs) supportedLanguages (st, 0, 0) h
  cases hf : foldE (qualityLangStep fs) (st, 0, 0) supportedLanguages with
  | mk acc o =>
    rw [hf] at h1
    obtain ⟨st1, total, items⟩ := acc
    cases o with
    | some m => exact h1
    | none =>
      dsimp only
      split
      · exact countersAgree_addWarning _ _ h1
      · exact h1

/-- Shared invariant: at the end of every run (whether it completed or
crashed) the state that accumulated through all stages satisfies
`CountersAgree`. -/
theorem run_countersAgree (dirs : String → Bool) (fs : FS) (year : Int) :
    CountersAgree (coreState (runCore dirs fs year)) := by
  unfold runCore
  dsimp only
  have h0 : CountersAgree (validateContentTypesStage fs year (validateContentStructure dirs fs initState)) :=
    countersAgree_validateContentTypesStage fs year _
      (countersAgree_validateContentStructure dirs fs initState countersAgree_init)
  have h1 := countersAgree_validateCrossReferences fs _ h0
  cases hc : validateCrossReferences fs (validateContentTypesStage fs year (validateContentStructure dirs fs initState)) with
  | mk st1 o =>
    rw [hc] at h1
    cases o with
    | some m => exact h1
    | none =>
      dsimp only
      have h2 := countersAgree_validateTranslationCompleteness fs st1 h1
      cases ht : validateTranslationCompleteness fs st1 with
      | mk st2 o2 =>
        rw [ht] at h2
        cases o2 with
        | some m => exact h2
        | none =>
          dsimp only
          have h3 := countersAgree_validateContentQuality fs st2 h2
          cases hq : validateContentQuality fs st2 with
          | mk st3 o3 =>
            rw [hq] at h3
            cases o3 with
            | some m => exact h3
            | none => exact h3

/-- C10. Invariant of the issue accumulator: `addError` and `addWarning`
each preserve the agreement `stats.totalErrors = errors.length` and
`stats.totalWarnings = warnings.length`, and consequently the accumulated
state of every validator run (completed or crashed) — hence the final
report — satisfies it: the printed and persisted counters always agree
with the listed issues. -/
theorem c10_counters_agree :
    (∀ (st : VState) (msg : String), CountersAgree st → CountersAgree (addError st msg))
    ∧ (∀ (st : VState) (msg : String), CountersAgree st → CountersAgree (addWarning st msg))
    ∧ (∀ (dirs : String → Bool) (fs : FS) (year : Int),
        CountersAgree (coreState (runCore dirs fs year))) :=
  ⟨fun st m h => countersAgree_addError st m h,
   fun st m h => countersAgree_addWarning st m h,
   fun dirs fs year => run_countersAgree dirs fs year⟩

theorem c10_witness :
    CountersAgree (addError initState "m")
    ∧ CountersAgree (addWarning initState "w")
    ∧ CountersAgree (coreState (runCore dirsAll fsAllAbsent 2025)) :=
  ⟨c10_counters_agree.1 initState "m" ⟨rfl, rfl⟩,
   c10_counters_agree.2.1 initState "w" ⟨rfl, rfl⟩,
   c10_counters_agree.2.2 dirsAll fsAllAbsent 2025⟩

/-- C8. For every completed run: the report's `passed` flag is true exactly
when the accumulated error count is zero (so warnings never affect it, as
`passed` is determined by `totalErrors` alone), and the process exit code
is 0 exactly when the error count is zero, 1 otherwise. -/
theorem c8_passed_iff_no_errors (dirs : String → Bool) (fs : FS) (year : Int)
    (ts : String) (e : Nat) (rep : Report) (code : Nat)
    (h : runValidator dirs fs year ts e = .completed rep code) :
    (rep.passed = true ↔ rep.totalErrors = 0)
    ∧ (code = 0 ↔ rep.totalErrors = 0)
    ∧ (rep.totalErrors ≠ 0 → code = 1) := by
  have hinv := run_countersAgree dirs fs year
  unfold runValidator at h
  cases hc : runCore dirs fs year with
  | inl st =>
    rw [hc] at h hinv
    have hagree : CountersAgree st := hinv
    cases h
    refine ⟨?_, ?_, ?_⟩
    · simp [generateReport, hagree.1, List.isEmpty_iff, List.length_eq_zero]
    · rcases Nat.eq_zero_or_pos st.errors.length with h0 | h0
      · simp [generateReport, hagree.1, h0]
      · simp [generateReport, hagree.1, h0, Nat.pos_iff_ne_zero.mp h0]
    · intro hne
      have : st.errors.length ≠ 0 := by
        simpa [generateReport, hagree.1] using hne
      simp [Nat.pos_of_ne_zero this]
  | inr p =>
    rw [hc] at h
    cases p with
    | mk st m => cases h

theorem c8_witness :
    ((reportOfRun (runValidator dirsAll fsAllAbsent 2025 "t" 0)).passed = true
      ↔ (reportOfRun (runValidator dirsAll fsAllAbsent 2025 "t" 0)).totalErrors = 0)
    ∧ ((exitCodeOfRun (runValidator dirsAll fsAllAbsent 2025 "t" 0)) = 0
      ↔ (reportOfRun (runValidator dirsAll fsAllAbsent 2025 "t" 0)).totalErrors = 0)
    ∧ ((reportOfRun (runValidator dirsAll fsAllAbsent 2025 "t" 0)).totalErrors ≠ 0
      → (exitCodeOfRun (runValidator dirsAll fsAllAbsent 2025 "t" 0)) = 1) :=
  c8_passed_iff_no_errors dirsAll fsAllAbsent 2025 "t" 0 _ _ (by decide)

theorem occJson_cons (v x : Json) (l : List Json) :
    occJson v (x :: l) = (if x == v then 1 else 0) + occJson v l := by
  unfold occJson
  by_cases hx : (x == v) = true
  · simp [List.filter_cons, hx, Nat.add_comm]
  · simp [List.filter_cons, Bool.eq_false_iff.mpr hx]

theorem occJson_pos_iff_mem (v : Json) (l : List Json) : 0 < occJson v l ↔ v ∈ l := by
  induction l with
  | nil => simp [occJson]
  | cons x l ih =>
    rw [occJson_cons]
    by_cases hx : (x == v) = true
    · have : x = v := eq_of_beq hx
      subst this
      simp
    · have hne : ¬ v = x := fun he => hx (by subst he; exact beq_self_eq_true v)
      simp [hx, ih, hne]

theorem occJson_cons_self (v : Json) (l : List Json) :
    occJson v (v :: l) = 1 + occJson v l := by
  rw [occJson_cons, beq_self_eq_true]
  simp

theorem occJson_cons_ne (v x : Json) (l : List Json) (h : ¬ x = v) :
    occJson v (x :: l) = occJson v l := by
  rw [occJson_cons]
  have : (x == v) = false := by
    cases hb : x == v
    · rfl
    · exact absurd (eq_of_beq hb) h
  simp [this]

theorem dupFold_spec : ∀ (habits seen dups : List Json),
    (∀ v, v ∈ dups → v ∈ seen) → dups.Nodup →
    (∀ v, v ∈ (habits.foldl dupStep (seen, dups)).1 ↔ (v ∈ seen ∨ v ∈ truthyIds habits))
    ∧ (∀ v, v ∈ (habits.foldl dupStep (seen, dups)).2 ↔
        (v ∈ dups ∨ (v ∈ seen ∧ v ∈ truthyIds habits) ∨ 2 ≤ occJson v (truthyIds habits)))
    ∧ (habits.foldl dupStep (seen, dups)).2.Nodup := by
  intro habits
  induction habits with
  | nil =>
    intro seen dups hsub hnd
    refine ⟨fun v => ?_, fun v => ?_, hnd⟩
    · simp [truthyIds]
    · simp [truthyIds, occJson]
  | cons h rest ih =>
    intro seen dups hsub hnd
    rw [List.foldl_cons]
    cases hg : h.getField "id" with
    | none =>
      have ht : truthyIds (h :: rest) = truthyIds rest := by
        simp [truthyIds, List.filterMap_cons, hg]
      rw [show dupStep (seen, dups) h = (seen, dups) by simp [dupStep, hg], ht]
      exact ih seen dups hsub hnd
    | some idv =>
      by_cases htr : idv.truthy = true
      · have ht : truthyIds (h :: rest) = idv :: truthyIds rest := by
          simp [truthyIds, List.filterMap_cons, hg, htr]
        rw [ht]
        by_cases hseen : seen.contains idv = true
        · have hseenMem : idv ∈ seen := by
            simpa [List.contains, List.elem_iff] using hseen
          by_cases hdups : dups.contains idv = true
          · have hdupsMem : idv ∈ dups := by
              simpa [List.contains, List.elem_iff] using hdups
            rw [show dupStep (seen, dups) h = (seen, dups) by
              simp [dupStep, hg, htr, hseenMem, hdupsMem]]
            obtain ⟨i1, i2, i3⟩ := ih seen dups hsub hnd
            refine ⟨fun v => ?_, fun v => ?_, i3⟩
            · rw [i1]
              constructor
              · rintro (hv | hv)
                · exact Or.inl hv
                · exact Or.inr (List.mem_cons_of_mem _ hv)
              · rintro (hv | hv)
                · exact Or.inl hv
                · rcases List.mem_cons.mp hv with hv | hv
                  · exact Or.inl (hv ▸ hseenMem)
                  · exact Or.inr hv
            · rw [i2]
              by_cases hveq : v = idv
              · subst hveq
                simp [hdupsMem]
              · constructor
                · rintro (hv | hv | hv)
                  · exact Or.inl hv
                  · exact Or.inr (Or.inl ⟨hv.1, List.mem_cons_of_mem _ hv.2⟩)
                  · exact Or.inr (Or.inr (by rw [occJson_cons_ne v idv _ (fun he => hveq he.symm)]; exact hv))
                · rintro (hv | hv | hv)
                  · exact Or.inl hv
                  · rcases List.mem_cons.mp hv.2 with hv2 | hv2
                    · exact absurd hv2 hveq
                    · exact Or.inr (Or.inl ⟨hv.1, hv2⟩)
                  · rw [occJson_cons_ne v idv _ (fun he => hveq he.symm)] at hv
                    exact Or.inr (Or.inr hv)
          · have hdupsMem : idv ∉ dups := by
              intro hmem
              exact absurd (by simpa [List.contains, List.elem_iff] using hmem : dups.contains idv = true) hdups
            rw [show dupStep (seen, dups) h = (seen, dups ++ [idv]) by
              simp [dupStep, hg, htr, hseenMem, hdupsMem]]
            have hsub2 : ∀ v, v ∈ dups ++ [idv] → v ∈ seen := by
              intro v hv
              rcases List.mem_append.mp hv with hv | hv
              · exact hsub v hv
              · rw [List.mem_singleton.mp hv]; exact hseenMem
            have hnd2 : (dups ++ [idv]).Nodup := by
              rw [← List.concat_eq_append]
              exact List.Nodup.concat hdupsMem hnd
            obtain ⟨i1, i2, i3⟩ := ih seen (dups ++ [idv]) hsub2 hnd2
            refine ⟨fun v => ?_, fun v => ?_, i3⟩
            · rw [i1]
              constructor
              · rintro (hv | hv)
                · exact Or.inl hv
                · exact Or.inr (List.mem_cons_of_mem _ hv)
              · rintro (hv | hv)
                · exact Or.inl hv
                · rcases List.mem_cons.mp hv with hv | hv
                  · exact Or.inl (hv ▸ hseenMem)
                  · exact Or.inr hv
            · rw [i2]
              by_cases hveq : v = idv
              · subst hveq
                simp [hseenMem]
              · have hmm : v ∈ dups ++ [idv] ↔ v ∈ dups := by
                  simp [List.mem_append, hveq]
                rw [hmm, occJson_cons_ne v idv _ (fun he => hveq he.symm)]
                constructor
                · rintro (hv | hv | hv)
                  · exact Or.inl hv
                  · exact Or.inr (Or.inl ⟨hv.1, List.mem_cons_of_mem _ hv.2⟩)
                  · exact Or.inr (Or.inr hv)
                · rintro (hv | hv | hv)
                  · exact Or.inl hv
                  · rcases List.mem_cons.mp hv.2 with hv2 | hv2
                    · exact absurd hv2 hveq
                    · exact Or.inr (Or.inl ⟨hv.1, hv2⟩)
                  · exact Or.inr (Or.inr hv)
        · have hseenMem : idv ∉ seen := by
            intro hmem
            exact absurd (by simpa [List.contains, List.elem_iff] using hmem : seen.contains idv = true) hseen
          have hdupsMem : idv ∉ dups := fun hmem => hseenMem (hsub idv hmem)
          rw [show dupStep (seen, dups) h = (seen ++ [idv], dups) by
            simp [dupStep, hg, htr, hseenMem]]
          have hsub2 : ∀ v, v ∈ dups → v ∈ seen ++ [idv] := by
            intro v hv
            exact List.mem_append.mpr (Or.inl (hsub v hv))
          obtain ⟨i1, i2, i3⟩ := ih (seen ++ [idv]) dups hsub2 hnd
          refine ⟨fun v => ?_, fun v => ?_, i3⟩
          · rw [i1]
            simp [List.mem_append, List.mem_cons]
            tauto
          · rw [i2]
            by_cases hveq : v = idv
            · subst hveq
              rw [occJson_cons_self]
              constructor
              · rintro (hv | hv | hv)
                · exact absurd hv hdupsMem
                · refine Or.inr (Or.inr ?_)
                  have hp : 0 < occJson v (truthyIds rest) :=
                    (occJson_pos_iff_mem v _).mpr hv.2
                  omega
                · exact Or.inr (Or.inr (by omega))
              · rintro (hv | hv | hv)
                · exact absurd hv hdupsMem
                · exact absurd hv.1 hseenMem
                · have hp : 0 < occJson v (truthyIds rest) := by omega
                  exact Or.inr (Or.inl ⟨List.mem_append.mpr (Or.inr (List.mem_singleton.mpr rfl)),
                    (occJson_pos_iff_mem v _).mp hp⟩)
            · have hmm : v ∈ seen ++ [idv] ↔ v ∈ seen := by
                simp [List.mem_append, hveq]
              rw [hmm, occJson_cons_ne v idv _ (fun he => hveq he.symm)]
              constructor
              · rintro (hv | hv | hv)
                · exact Or.inl hv
                · exact Or.inr (Or.inl ⟨hv.1, List.mem_cons_of_mem _ hv.2⟩)
                · exact Or.inr (Or.inr hv)
              · rintro (hv | hv | hv)
                · exact Or.inl hv
                · rcases List.mem_cons.mp hv.2 with hv2 | hv2
                  · exact absurd hv2 hveq
                  · exact Or.inr (Or.inl ⟨hv.1, hv2⟩)
                · exact Or.inr (Or.inr hv)
      · have ht : truthyIds (h :: rest) = truthyIds rest := by
          simp [truthyIds, List.filterMap_cons, hg, htr]
        rw [show dupStep (seen, dups) h = (seen, dups) by simp [dupStep, hg, htr], ht]
        exact ih seen dups hsub hnd

/-- A habits file with two distinct duplicated id values: `a` appears
twice and `b` appears twice. -/
def c3File : List Json := [mkIdObj "a", mkIdObj "a", mkIdObj "b", mkIdObj "b"]

/-- C3 counterexample. The claim says the run reports exactly one
duplicate-ID error PER DUPLICATED ID VALUE. On a file with two duplicated
id values (`a` and `b`), `checkDuplicateIds` produces exactly ONE error
(for the whole file, naming both values), not two: the claimed count (one
per duplicated value, here 2) does not match the actual count (1). -/
theorem c3_counterexample :
    (fileDuplicates c3File).length = 2
    ∧ checkDuplicateIdsFile "multilingual-science-habits-en.json" c3File
        = ["Duplicate habit IDs in multilingual-science-habits-en.json: a, b"]
    ∧ (checkDuplicateIdsFile "multilingual-science-habits-en.json" c3File).length = 1
    ∧ ¬ (checkDuplicateIdsFile "multilingual-science-habits-en.json" c3File).length = 2 := by
  refine ⟨by decide, by decide, by decide, by decide⟩

/-- C3 amended. Within one habits file, when records share ids the check
reports exactly ONE duplicate-ID error for that file, whose message names
each duplicated id value exactly once (the duplicate list has no repeats,
and contains precisely the truthy id values occurring at least twice —
so in particular nothing is reported once per pair of records). -/
theorem c3_amended (file : String) (habits : List Json)
    (h : fileDuplicates habits ≠ []) :
    checkDuplicateIdsFile file habits
      = ["Duplicate habit IDs in " ++ file ++ ": " ++ joinSep ", " ((fileDuplicates habits).map jsStringOf)]
    ∧ (fileDuplicates habits).Nodup
    ∧ (∀ v, v ∈ fileDuplicates habits ↔ 2 ≤ occJson v (truthyIds habits)) := by
  obtain ⟨i1, i2, i3⟩ := dupFold_spec habits [] [] (fun v hv => absurd hv (List.not_mem_nil v)) List.nodup_nil
  refine ⟨?_, i3, fun v => ?_⟩
  · unfold checkDuplicateIdsFile
    rw [if_pos (List.length_pos.mpr h)]
  · unfold fileDuplicates
    rw [i2 v]
    simp

theorem c3_amended_witness :
    checkDuplicateIdsFile "f.json" c3File
      = ["Duplicate habit IDs in f.json: " ++ joinSep ", " ((fileDuplicates c3File).map jsStringOf)]
    ∧ (fileDuplicates c3File).Nodup
    ∧ (Json.str "a" ∈ fileDuplicates c3File ↔ 2 ≤ occJson (Json.str "a") (truthyIds c3File)) :=
  ⟨(c3_amended "f.json" c3File (by decide)).1,
   (c3_amended "f.json" c3File (by decide)).2.1,
   (c3_amended "f.json" c3File (by decide)).2.2 (Json.str "a")⟩

/-- C7. An absent (content type, language) file: the structure stage and
the per-type stage each emit a warning (and no error — the state is
otherwise untouched, as the equations show), and every downstream consumer
treats the file as empty: `loadContentSafely` returns the empty-equivalent
value (empty array for habits/research, empty map for locales) without
recording any issue, the cross-reference id collection skips it, and the
cross-reference habit check leaves the state unchanged. -/
theorem c7_absent_file_warning_empty_equivalent (fs : FS) (ct lang : String) (st : VState)
    (year : Int) (ids : List (Option Json))
    (h : fs ct lang = .absent) :
    structureFileCheck fs st ct lang
      = addWarning st ("Missing content file: " ++ contentPath ct lang)
    ∧ validateContentTypeLang fs year ct st lang
      = addWarning st ("Missing " ++ ct ++ " file for " ++ lang ++ ": " ++ contentPath ct lang)
    ∧ loadContentSafely fs ct lang st
      = (st, if ct == "locales" then Json.obj [] else Json.arr [])
    ∧ (ct = "research" → crossRefCollectStep fs (.ok ids) lang = .ok ids)
    ∧ (ct = "habits" → crossRefHabitsLang fs ids st lang = (st, none)) := by
  refine ⟨?_, ?_, ?_, fun hct => ?_, fun hct => ?_⟩
  · unfold structureFileCheck fileExists
    rw [h]
    rfl
  · unfold validateContentTypeLang
    rw [h]
  · unfold loadContentSafely
    rw [h]
  · subst hct
    unfold crossRefCollectStep
    rw [h]
  · subst hct
    unfold crossRefHabitsLang
    rw [h]

theorem c7_witness :
    structureFileCheck fsAllAbsent initState "habits" "en"
      = addWarning initState ("Missing content file: " ++ contentPath "habits" "en")
    ∧ validateContentTypeLang fsAllAbsent 2025 "habits" initState "en"
      = addWarning initState ("Missing " ++ "habits" ++ " file for " ++ "en" ++ ": " ++ contentPath "habits" "en")
    ∧ loadContentSafely fsAllAbsent "habits" "en" initState
      = (initState, if "habits" == "locales" then Json.obj [] else Json.arr [])
    ∧ ("habits" = "research" → crossRefCollectStep fsAllAbsent (.ok []) "en" = .ok [])
    ∧ ("habits" = "habits" → crossRefHabitsLang fsAllAbsent [] initState "en" = (initState, none)) :=
  c7_absent_file_warning_empty_equivalent fsAllAbsent "habits" "en" initState 2025 [] rfl

/-- The id value carried by a `mkIdObj` record. -/
def strIdVal (s : String) : Option Json := some (Json.str s)

theorem getField_mkIdObj (s : String) : (mkIdObj s).getField "id" = some (Json.str s) := rfl

theorem mapIds_mkIdObj (l : List String) :
    mapIds (Json.arr (l.map mkIdObj)) = .ok (l.map strIdVal) := by
  unfold mapIds
  refine congrArg Except.ok ?_
  induction l with
  | nil => rfl
  | cons a l ih => simp only [List.map_cons, getField_mkIdObj, ih]; rfl

theorem strIdVal_beq (a b : String) : (strIdVal a == strIdVal b) = (a == b) := rfl

theorem contains_map_strIdVal (l : List String) (x : String) :
    (l.map strIdVal).contains (strIdVal x) = l.contains x := by
  induction l with
  | nil => rfl
  | cons a l ih =>
    simp only [List.map_cons, List.contains_cons, ih, strIdVal_beq]

theorem dedupOJ_map_strIdVal (l : List String) :
    dedupOJ (l.map strIdVal) = (dedupStr l).map strIdVal := by
  unfold dedupOJ dedupStr
  suffices hgen : ∀ acc : List String,
      List.foldl (fun acc x => if acc.contains x then acc else acc ++ [x])
          (acc.map strIdVal) (l.map strIdVal)
        = (List.foldl (fun acc x => if acc.contains x then acc else acc ++ [x]) acc l).map strIdVal by
    simpa using hgen []
  induction l with
  | nil => intro acc; rfl
  | cons a l ih =>
    intro acc
    simp only [List.map_cons, List.foldl_cons, contains_map_strIdVal]
    by_cases hc : acc.contains a = true
    · rw [if_pos hc, if_pos hc]
      exact ih acc
    · rw [if_neg hc, if_neg hc]
      rw [show (acc.map strIdVal) ++ [strIdVal a] = (acc ++ [a]).map strIdVal by simp]
      exact ih (acc ++ [a])

theorem filter_map_strIdVal (base mine : List String) :
    (base.map strIdVal).filter (fun id => !(mine.map strIdVal).contains id)
      = (base.filter (fun x => !mine.contains x)).map strIdVal := by
  induction base with
  | nil => rfl
  | cons a base ih =>
    rw [List.map_cons, List.filter_cons, List.filter_cons, contains_map_strIdVal]
    by_cases hb : (!mine.contains a) = true
    · rw [if_pos hb, if_pos hb, ih, List.map_cons]
    · rw [if_neg hb, if_neg hb, ih]

theorem jsJoinElem_strIdVal (s : String) : jsJoinElem (strIdVal s) = s := rfl

theorem previewOJ_map_strIdVal (missing : List String) (bound : Nat) :
    previewOJ (missing.map strIdVal) bound = specPreview missing bound := by
  unfold previewOJ specPreview
  rw [List.length_map, ← List.map_take, List.map_map]
  have hmap : (missing.take bound).map (jsJoinElem ∘ strIdVal) = missing.take bound := by
    induction (missing.take bound) with
    | nil => rfl
    | cons a l ih => simp only [List.map_cons, Function.comp, jsJoinElem_strIdVal, ih]
  rw [hmap]

theorem appendWarnings_append (st : VState) (a b : List String) :
    appendWarnings (appendWarnings st a) b = appendWarnings st (a ++ b) := by
  unfold appendWarnings
  rw [List.foldl_append]

theorem foldE_appendWarnings {α : Type} (f : VState → α → VState × Option String)
    (g : α → List String)
    (hf : ∀ st x, f st x = (appendWarnings st (g x), none)) :
    ∀ (xs : List α) (st : VState), foldE f st xs = (appendWarnings st (xs.flatMap g), none) := by
  intro xs
  induction xs with
  | nil => intro st; rfl
  | cons x xs ih =>
    intro st
    simp only [foldE, hf st x]
    rw [ih (appendWarnings st (g x)), appendWarnings_append]
    rfl

theorem transRecordsLang_spec (fs : FS) (ct label : String) (bound : Nat)
    (g : String → List String)
    (hload : ∀ (lang : String) (st : VState),
      loadContentSafely fs ct lang st = (st, .arr ((g lang).map mkIdObj)))
    (st : VState) (lang : String) :
    transRecordsLang fs ct label bound ((dedupStr (g "en")).map strIdVal) st lang
      = (appendWarnings st (specBlockWarnings (g "en") (g lang)
          (fun m => "Missing " ++ lang ++ " translations for " ++ label ++ ": " ++ specPreview m bound)), none) := by
  unfold transRecordsLang
  rw [hload lang st]
  dsimp only
  rw [mapIds_mkIdObj]
  dsimp only
  rw [filter_map_strIdVal]
  unfold specBlockWarnings specMissingIds
  rw [List.length_map]
  by_cases hc : 0 < ((dedupStr (g "en")).filter (fun x => !(g lang).contains x)).length
  · rw [if_pos hc, if_pos hc, previewOJ_map_strIdVal]
    rfl
  · rw [if_neg hc, if_neg hc]
    rfl

theorem transRecordsBlock_spec (fs : FS) (ct label : String) (bound : Nat)
    (g : String → List String)
    (hload : ∀ (lang : String) (st : VState),
      loadContentSafely fs ct lang st = (st, .arr ((g lang).map mkIdObj)))
    (st : VState) :
    transRecordsBlock fs ct label bound st
      = (appendWarnings st (nonBaselineLanguages.flatMap
          (fun lang => specBlockWarnings (g "en") (g lang)
            (fun m => "Missing " ++ lang ++ " translations for " ++ label ++ ": " ++ specPreview m bound))), none) := by
  unfold transRecordsBlock
  rw [hload "en" st]
  dsimp only
  rw [mapIds_mkIdObj]
  dsimp only
  rw [dedupOJ_map_strIdVal]
  exact foldE_appendWarnings _ _
    (fun st lang => transRecordsLang_spec fs ct label bound g hload st lang) _ st

theorem objectKeys_mkLocaleObj (keys : List String) : objectKeys (mkLocaleObj keys) = .ok keys := by
  unfold objectKeys mkLocaleObj
  refine congrArg Except.ok ?_
  induction keys with
  | nil => rfl
  | cons a keys ih => simp only [List.map_cons, ih]

theorem transLocalesLang_spec (fs : FS) (g : String → List String)
    (hload : ∀ (lang : String) (st : VState),
      loadContentSafely fs "locales" lang st = (st, mkLocaleObj (g lang)))
    (st : VState) (lang : String) :
    transLocalesLang fs (dedupStr (g "en")) st lang
      = (appendWarnings st (specBlockWarnings (g "en") (g lang)
          (fun m => "Missing " ++ lang ++ " locale keys: " ++ specPreview m 5)), none) := by
  unfold transLocalesLang
  rw [hload lang st]
  dsimp only
  rw [objectKeys_mkLocaleObj]
  dsimp only
  unfold specBlockWarnings specMissingIds specPreview
  by_cases hc : 0 < ((dedupStr (g "en")).filter (fun x => !(g lang).contains x)).length
  · rw [if_pos hc, if_pos hc]
    show (addWarning st _, (none : Option String)) = (addWarning st _, (none : Option String))
    rw [String.append_assoc]
  · rw [if_neg hc, if_neg hc]
    rfl

theorem transLocalesBlock_spec (fs : FS) (g : String → List String)
    (hload : ∀ (lang : String) (st : VState),
      loadContentSafely fs "locales" lang st = (st, mkLocaleObj (g lang)))
    (st : VState) :
    transLocalesBlock fs st
      = (appendWarnings st (nonBaselineLanguages.flatMap
          (fun lang => specBlockWarnings (g "en") (g lang)
            (fun m => "Missing " ++ lang ++ " locale keys: " ++ specPreview m 5))), none) := by
  unfold transLocalesBlock
  rw [hload "en" st]
  dsimp only
  rw [objectKeys_mkLocaleObj]
  dsimp only
  exact foldE_appendWarnings _ _
    (fun st lang => transLocalesLang_spec fs g hload st lang) _ st

/-- C6. Translation completeness (refinement): over any file set built
from per-language id lists (habits, research) and key lists (locales), the
translation-completeness stage emits exactly the warnings described by the
spec — for every content type and every non-baseline language, one warning
if and only if the set difference (baseline `'en'` ids minus that
language's ids) is non-empty, naming exactly the missing ids via the
bounded preview (first 5 for habits and locale keys, first 3 for research,
plus `...` when more) — and nothing else. The second conjunct is the
spec's concrete instance: baseline ids {a,b,c} versus {a,b} yields, per
non-baseline language, exactly one warning naming exactly `c`. -/
theorem c6_translation_completeness :
    (∀ (h r l : String → List String) (st : VState),
      validateTranslationCompleteness (mkContentFs h r l) st
        = (appendWarnings st (specCompletenessWarnings h r l), none))
    ∧ validateTranslationCompleteness
        (mkContentFs (fun lang => if lang == "en" then ["a", "b", "c"] else ["a", "b"])
          (fun _ => []) (fun _ => [])) initState
      = (appendWarnings initState
          ["Missing de translations for habits: c",
           "Missing fr translations for habits: c",
           "Missing es translations for habits: c"], none) := by
  constructor
  · intro h r l st
    have hh : ∀ (lang : String) (st : VState),
        loadContentSafely (mkContentFs h r l) "habits" lang st
          = (st, .arr ((h lang).map mkIdObj)) := fun lang st => rfl
    have hr : ∀ (lang : String) (st : VState),
        loadContentSafely (mkContentFs h r l) "research" lang st
          = (st, .arr ((r lang).map mkIdObj)) := fun lang st => rfl
    have hl : ∀ (lang : String) (st : VState),
        loadContentSafely (mkContentFs h r l) "locales" lang st
          = (st, mkLocaleObj (l lang)) := fun lang st => rfl
    unfold validateTranslationCompleteness
    rw [transRecordsBlock_spec (mkContentFs h r l) "habits" "habits" 5 h hh st]
    dsimp only
    rw [transRecordsBlock_spec (mkContentFs h r l) "research" "research" 3 r hr _]
    dsimp only
    rw [transLocalesBlock_spec (mkContentFs h r l) l hl _]
    unfold specCompletenessWarnings
    rw [appendWarnings_append, appendWarnings_append, List.append_assoc]
  · decide
